import Mathlib

/-!
# MultiJulia: the Buddha plotter (`ct_fplot_buddha_test_p0.cpp`)

A shallow embedding of the plotting core of the program and theorems about it.

Conventions of the embedding.

* `double` is idealised as an exact rational number (`ℚ`): sums, products and
  quotients are exact, there is no rounding, infinity or NaN.
* `unsigned long` and `size_t` are 64-bit: values are natural numbers and the
  arithmetic the source does on them is taken modulo `2^64`.  `long` is the
  64-bit two's complement integer.
* `unsigned char` is a natural number, stores into it are taken modulo `256`.
* The conversion of a `double` to `long` is truncation toward zero, as an
  unbounded integer.  A quotient beyond the range of `long` is then out of
  bounds for the raster, which is also what the conversion instruction of the
  usual hardware yields (the most negative `long`).
* A function containing an `assert` returns `Option`: `none` is the failed
  assertion (or a faulting buffer access).
* `printf` output is not modelled.
-/

namespace MultiJulia

/-! ## Machine arithmetic -/

/-- The number of values of an `unsigned long` / `size_t`. -/
def ULONG_SIZE : Nat := 2 ^ 64

/-- The C++ cast `(long)w` of an `unsigned long`: two's complement reinterpretation. -/
def to_long (w : Nat) : Int :=
  if w % ULONG_SIZE < 2 ^ 63 then ((w % ULONG_SIZE : Nat) : Int)
  else ((w % ULONG_SIZE : Nat) : Int) - (ULONG_SIZE : Int)

/-- The conversion of a `long` (or of a mixed `long`/`unsigned long` result) to
`unsigned long` / `size_t`: reduction modulo `2^64`. -/
def to_ulong (v : Int) : Nat := (v % (ULONG_SIZE : Int)).toNat

/-- The conversion of a `double` to an integer type truncates toward zero. -/
def trunc (q : ℚ) : Int := if 0 ≤ q then ⌊q⌋ else ⌈q⌉

/-- The store of a `double` into an `unsigned char`: truncation toward zero, of
which the low eight bits are kept.  (For a value outside `0..255` the C++
standard leaves the result open; the low byte is what the usual compilers
produce.) -/
def to_uchar (q : ℚ) : Nat := (trunc q % 256).toNat

/-- The C `fabs`. -/
def fabs (q : ℚ) : ℚ := if 0 ≤ q then q else -q

/-! ## Data model -/

/-- The type `ct_complex` is `std::complex<double>`. -/
structure ct_complex where
  re : ℚ
  im : ℚ
deriving DecidableEq

/-- The struct `ct_rgb_meta`: the accumulators of a cell (`alpha` is the hit count). -/
structure ct_rgb_meta where
  red : ℚ
  blue : ℚ
  green : ℚ
  alpha : ℚ
deriving DecidableEq

/-- The struct `ct_rgb`: display bytes and the accumulators. -/
structure ct_rgb where
  r : Nat
  g : Nat
  b : Nat
  meta : ct_rgb_meta
deriving DecidableEq

/-- The macro `CT_RGB(r, g, b)`: the given bytes and zeroed accumulators. -/
def CT_RGB (mp_red mp_green mp_blue : Nat) : ct_rgb :=
  { r := mp_red, g := mp_green, b := mp_blue,
    meta := { red := 0, blue := 0, green := 0, alpha := 0 } }

/-- The struct `ct_canvas`: `buf` is the heap array the pointer refers to. -/
structure ct_canvas where
  width : Nat
  height : Nat
  buf : List ct_rgb
deriving DecidableEq

/-- The struct `ct_axes`. -/
structure ct_axes where
  xmin : ℚ
  xmax : ℚ
  ymin : ℚ
  ymax : ℚ
deriving DecidableEq

/-- The struct `ct_plane`. -/
structure ct_plane where
  axes : ct_axes
  xstep : ℚ
  ystep : ℚ
deriving DecidableEq

/-- The struct `ct_plot`; the canvas pointer is modelled by the canvas it points to. -/
structure ct_plot where
  plane : ct_plane
  canvas : ct_canvas
deriving DecidableEq

/-- A canvas as `ct_canvas_create` is meant to build it: the buffer holds
exactly `width * height` cells, a number that fits a `long` (an array of the
program has fewer than `2^63` elements). -/
def ct_canvas.valid (c : ct_canvas) : Prop :=
  c.width * c.height < 2 ^ 63 ∧ c.buf.length = c.width * c.height

instance (c : ct_canvas) : Decidable c.valid := by
  unfold ct_canvas.valid; infer_instance

/-- A canvas of the given size with every cell zeroed (what `calloc` gives). -/
def ct_canvas_zero (width height : Nat) : ct_canvas :=
  { width := width, height := height,
    buf := List.replicate (width * height) (CT_RGB 0 0 0) }

/-! ## Viewport -/

/-- The function `ct_axes_from_point`. -/
def ct_axes_from_point (z : ct_complex) (radius : ℚ) : ct_axes :=
  { xmin := z.re - radius, xmax := z.re + radius,
    ymin := z.im - radius, ymax := z.im + radius }

/-- The function `ct_plane_init`; `none` is the failed assertion. -/
def ct_plane_init (axes : ct_axes) (width height : Nat) : Option ct_plane :=
  let awidth := axes.xmax - axes.xmin
  let aheight := axes.ymax - axes.ymin
  if width > 0 ∧ height > 0 ∧ awidth > 0 then
    let daspect := fabs ((height : ℚ) / (width : ℚ))
    let waspect := fabs (aheight / awidth)
    let axes1 : ct_axes :=
      if daspect > waspect then
        let excess := aheight * (daspect / waspect - 1)
        { axes with ymax := axes.ymax + excess / 2, ymin := axes.ymin - excess / 2 }
      else if daspect < waspect then
        let excess := awidth * (waspect / daspect - 1)
        { axes with xmax := axes.xmax + excess / 2, xmin := axes.xmin - excess / 2 }
      else axes
    some { axes := axes1,
           xstep := (axes1.xmax - axes1.xmin) / (width : ℚ),
           ystep := (axes1.ymax - axes1.ymin) / (height : ℚ) }
  else none

/-- The function `ct_plot_init`: the plane is initialised at `width - 1`,
`height - 1` (in `unsigned long` arithmetic). -/
def ct_plot_init (axes : ct_axes) (canvas : ct_canvas) : Option ct_plot :=
  (ct_plane_init axes ((canvas.width + ULONG_SIZE - 1) % ULONG_SIZE)
      ((canvas.height + ULONG_SIZE - 1) % ULONG_SIZE)).map
    fun plane => { plane := plane, canvas := canvas }

/-! ## Point mapper -/

/-- The pixel column `long x = (z.real() - xmin) / xstep`. -/
def pixel_x (plane : ct_plane) (z : ct_complex) : Int :=
  trunc ((z.re - plane.axes.xmin) / plane.xstep)

/-- The pixel row `long y = (ymax - z.imag()) / ystep`. -/
def pixel_y (plane : ct_plane) (z : ct_complex) : Int :=
  trunc ((plane.axes.ymax - z.im) / plane.ystep)

/-- The bounds check of the three plotting functions, as the source writes it. -/
def in_bounds (self : ct_plot) (z : ct_complex) : Prop :=
  pixel_x self.plane z > -1 ∧ pixel_x self.plane z < to_long self.canvas.width ∧
  pixel_y self.plane z > -1 ∧ pixel_y self.plane z < to_long self.canvas.height

instance (self : ct_plot) (z : ct_complex) : Decidable (in_bounds self z) := by
  unfold in_bounds; infer_instance

/-- The index `size_t i = x + y * width`, computed in `unsigned long`. -/
def pixel_index (self : ct_plot) (z : ct_complex) : Nat :=
  to_ulong (pixel_x self.plane z + pixel_y self.plane z * (self.canvas.width : Int))

/-- The function `ct_plot_addx`; the `color` argument is not used by the source.
The result is the returned `bool` and the plot after the call. -/
def ct_plot_addx (self : ct_plot) (z : ct_complex) (_color : ct_rgb) : Option (Bool × ct_plot) :=
  if in_bounds self z then
    let i := pixel_index self z
    if i < (self.canvas.height * self.canvas.width) % ULONG_SIZE then
      match self.canvas.buf[i]? with
      | some exist =>
        let addend : Nat := 3
        let exist1 : ct_rgb :=
          if exist.r < 255 - addend then
            { exist with r := (exist.r + addend) % 256 }
          else if exist.g < 255 - addend then
            { exist with r := 255, g := (exist.g + addend) % 256 }
          else if exist.b < 255 - addend then
            { exist with r := 255, g := 255, b := (exist.b + addend) % 256 }
          else
            { exist with r := 255, g := 255, b := 255 }
        some (true, { self with canvas := { self.canvas with buf := self.canvas.buf.set i exist1 } })
      | none => none
    else none
  else some (true, self)

/-- The function `ct_plot_point`: `buf[i] = *color` stores the whole structure. -/
def ct_plot_point (self : ct_plot) (z : ct_complex) (color : ct_rgb) : Option (Bool × ct_plot) :=
  if in_bounds self z then
    let i := pixel_index self z
    if i < (self.canvas.height * self.canvas.width) % ULONG_SIZE then
      match self.canvas.buf[i]? with
      | some _ =>
        some (true, { self with canvas := { self.canvas with buf := self.canvas.buf.set i color } })
      | none => none
    else none
  else some (false, self)

/-- The function `ct_plot_add`. -/
def ct_plot_add (self : ct_plot) (z : ct_complex) (color : ct_rgb) : Option (Bool × ct_plot) :=
  if in_bounds self z then
    let i := pixel_index self z
    if i < (self.canvas.height * self.canvas.width) % ULONG_SIZE then
      match self.canvas.buf[i]? with
      | some exist =>
        let exist1 : ct_rgb :=
          { exist with
            meta := { red := exist.meta.red + color.meta.red,
                      green := exist.meta.green + color.meta.green,
                      blue := exist.meta.blue + color.meta.blue,
                      alpha := exist.meta.alpha + 1 } }
        some (true, { self with canvas := { self.canvas with buf := self.canvas.buf.set i exist1 } })
      | none => none
    else none
  else some (true, self)

/-- The shape shared by the three plotting functions: bounds check, index,
assertion and access to the cell; `upd` gives the cell stored back, `miss` the
value returned for a pixel out of bounds. -/
def plot_cell (self : ct_plot) (z : ct_complex) (upd : ct_rgb → ct_rgb) (miss : Bool) :
    Option (Bool × ct_plot) :=
  if in_bounds self z then
    let i := pixel_index self z
    if i < (self.canvas.height * self.canvas.width) % ULONG_SIZE then
      match self.canvas.buf[i]? with
      | some exist =>
        some (true, { self with canvas := { self.canvas with buf := self.canvas.buf.set i (upd exist) } })
      | none => none
    else none
  else some (miss, self)

/-- The saturating ladder of `ct_plot_addx` on one cell (`addend = 3`). -/
def addx_rgb (exist : ct_rgb) : ct_rgb :=
  let addend : Nat := 3
  if exist.r < 255 - addend then
    { exist with r := (exist.r + addend) % 256 }
  else if exist.g < 255 - addend then
    { exist with r := 255, g := (exist.g + addend) % 256 }
  else if exist.b < 255 - addend then
    { exist with r := 255, g := 255, b := (exist.b + addend) % 256 }
  else
    { exist with r := 255, g := 255, b := 255 }

/-- The accumulation of `ct_plot_add` on one cell. -/
def add_rgb (color : ct_rgb) (exist : ct_rgb) : ct_rgb :=
  { exist with
    meta := { red := exist.meta.red + color.meta.red,
              green := exist.meta.green + color.meta.green,
              blue := exist.meta.blue + color.meta.blue,
              alpha := exist.meta.alpha + 1 } }

/-! ## Density normaliser

`log10` is the C library function; it is a parameter of the embedding, and the
theorems say which of its properties they use. -/

/-- The body of the loop of `ct_canvas_log_density_post_processing` on one cell. -/
def log_density_cell (log10 : ℚ → ℚ) (color : ct_rgb) : ct_rgb :=
  if color.meta.alpha > 0 then
    let c := color.meta
    let dense := log10 c.alpha / c.alpha
    let red := c.red * dense
    let red := if red > 1 then 1 else red
    let green := c.green * dense
    let green := if green > 1 then 1 else green
    let blue := c.blue * dense
    let blue := if blue > 1 then 1 else blue
    { color with r := to_uchar (red * 255), g := to_uchar (green * 255), b := to_uchar (blue * 255) }
  else color

/-- The function `ct_canvas_log_density_post_processing`: the loop runs over the
first `width * height` cells of the buffer. -/
def ct_canvas_log_density_post_processing (log10 : ℚ → ℚ) (self : ct_canvas) : ct_canvas :=
  let size := (self.width * self.height) % ULONG_SIZE
  { self with buf := (self.buf.take size).map (log_density_cell log10) ++ self.buf.drop size }

/-! ## Orbit engine

The complex square root and `rand` are library functions: `csqrt` is a
parameter of the embedding, and so are `RAND_MAX` and the sequence `rand` of
the values that the successive calls of `rand()` return (`rand k` is the value
of call number `k`, counted from 0; the engine is the only caller, so the
sample of index `i` gets the calls `2 * i` and `2 * i + 1`). -/

/-- The sum of two `ct_complex`. -/
def cadd (a b : ct_complex) : ct_complex := { re := a.re + b.re, im := a.im + b.im }

/-- The difference of two `ct_complex`. -/
def csub (a b : ct_complex) : ct_complex := { re := a.re - b.re, im := a.im - b.im }

/-- The opposite of a `ct_complex`. -/
def cneg (a : ct_complex) : ct_complex := { re := -a.re, im := -a.im }

/-- The product of two `ct_complex`. -/
def cmul (a b : ct_complex) : ct_complex :=
  { re := a.re * b.re - a.im * b.im, im := a.re * b.im + a.im * b.re }

/-- The plot the engine draws on, together with the list of the `ct_plot_add`
calls issued on it so far, oldest first.  The list is a record kept by the
embedding; the source has no such field. -/
structure ct_logged where
  plot : ct_plot
  calls : List (ct_complex × ct_rgb)
deriving DecidableEq

/-- A call `ct_plot_add(plot, z, &color)` whose returned value is dropped, as
the engine does; the call is recorded. -/
def ct_plot_add_logged (self : ct_logged) (z : ct_complex) (color : ct_rgb) : Option ct_logged :=
  match ct_plot_add self.plot z color with
  | none => none
  | some (_, plot1) => some { plot := plot1, calls := self.calls ++ [(z, color)] }

/-- The colour update of `ct_all_plotting_buddha` at the loop index `i`. -/
def buddha_color (i : Nat) (color : ct_rgb) : ct_rgb :=
  if i = 0 then
    { color with meta := { color.meta with
        red := (681 / 1000 + color.meta.red) / 2,
        blue := (581 / 1000 + color.meta.blue) / 2 } }
  else if i = 1 then
    { color with meta := { color.meta with
        green := (681 / 1000 + color.meta.green) / 2,
        blue := (781 / 1000 + color.meta.blue) / 2 } }
  else
    { color with meta := { color.meta with blue := (681 / 1000 + color.meta.blue) / 2 } }

/-- The loop of `ct_all_plotting_buddha` from the index `i` on, with `k`
iterations left. -/
def ct_all_plotting_buddha_loop (c : ct_complex) :
    Nat → Nat → ct_complex → ct_rgb → ct_logged → Option (ct_complex × ct_logged)
  | _, 0, z, _, plot => some (z, plot)
  | i, k + 1, z, color, plot =>
    let z1 := cadd (cmul z z) c
    let color1 := buddha_color i color
    match ct_plot_add_logged plot z1 color1 with
    | none => none
    | some plot1 => ct_all_plotting_buddha_loop c (i + 1) k z1 color1 plot1

/-- The function `ct_all_plotting_buddha`: the returned `z` and the plot after it. -/
def ct_all_plotting_buddha (plot : ct_logged) (z c : ct_complex) (n : Nat) :
    Option (ct_complex × ct_logged) :=
  ct_all_plotting_buddha_loop c 0 n z (CT_RGB 0 0 0) plot

/-- The local variables of `ct_ifs` that live across the loop, and the plot. -/
structure ifs_state where
  z : ct_complex
  c : ct_complex
  color : ct_rgb
  plot : ct_logged
deriving DecidableEq

/-- The block "thirds" of the loop of `ct_ifs`: the Julia parameter chosen and
the colour after it. -/
def ct_ifs_select (rn0 : ℚ) (color : ct_rgb) : ct_complex × ct_rgb :=
  if rn0 < 1 / 3 then
    ({ re := 1, im := 1 },
      { color with meta := { color.meta with
          blue := 0,
          red := (681 / 1000 + color.meta.red) / 2,
          green := (681 / 1000 + color.meta.green) / 2 } })
  else if rn0 < 2 / 3 then
    ({ re := -1, im := -1 },
      { color with meta := { color.meta with
          green := 0,
          red := (681 / 1000 + color.meta.red) / 2,
          blue := (681 / 1000 + color.meta.blue) / 2 } })
  else
    ({ re := 0, im := 2 },
      { color with meta := { color.meta with
          red := color.meta.red / (1 / 2),
          green := (681 / 1000 + color.meta.green) / 2,
          blue := (681 / 1000 + color.meta.blue) / 2 } })

/-- The block "next iterate" of the loop of `ct_ifs`: the root chosen and the
colour after it. -/
def ct_ifs_advance (rn1 : ℚ) (root : ct_complex) (color : ct_rgb) : ct_complex × ct_rgb :=
  if rn1 > 1 / 2 then
    (cneg root,
      { color with meta := { color.meta with
          blue := 0,
          red := (681 / 1000 + color.meta.red) / 2 } })
  else
    (root,
      { color with meta := { color.meta with
          red := 0,
          blue := (681 / 1000 + color.meta.blue) / 2 } })

/-- The body of the loop of `ct_ifs` at the index `i` of a run of `n` samples.
The test `i % (n / 3)` that guards the progress message divides by zero when
`n < 3`; that is the result `none`, like a failed assertion. -/
def ct_ifs_sample (csqrt : ct_complex → ct_complex) (RAND_MAX : Nat) (rand : Nat → Nat)
    (n i : Nat) (s : ifs_state) : Option ifs_state :=
  let rn0 := (rand (2 * i) : ℚ) / (RAND_MAX : ℚ)
  let rn1 := (rand (2 * i + 1) : ℚ) / (RAND_MAX : ℚ)
  let c := (ct_ifs_select rn0 s.color).1
  let color := (ct_ifs_select rn0 s.color).2
  let d := csub s.z c
  let root := csqrt d
  let plotted : Option ct_logged :=
    if i > 100 then
      match ct_all_plotting_buddha s.plot s.z s.z 3 with
      | none => none
      | some (_, plot1) => ct_plot_add_logged plot1 s.z color
    else some s.plot
  match plotted with
  | none => none
  | some plot2 =>
    if n / 3 = 0 then none
    else some { z := (ct_ifs_advance rn1 root color).1, c := c,
                color := (ct_ifs_advance rn1 root color).2, plot := plot2 }

/-- The loop of `ct_ifs` from the index `i` on, with `k` samples left. -/
def ct_ifs_loop (csqrt : ct_complex → ct_complex) (RAND_MAX : Nat) (rand : Nat → Nat) (n : Nat) :
    Nat → Nat → ifs_state → Option ifs_state
  | _, 0, s => some s
  | i, k + 1, s =>
    match ct_ifs_sample csqrt RAND_MAX rand n i s with
    | none => none
    | some s1 => ct_ifs_loop csqrt RAND_MAX rand n (i + 1) k s1

/-- The state of `ct_ifs` before the first sample. -/
def ifs_start (plot : ct_logged) : ifs_state :=
  { z := { re := 0, im := 0 }, c := { re := 0, im := 0 }, color := CT_RGB 0 0 0, plot := plot }

/-- The function `ct_ifs`: the plot after the run. -/
def ct_ifs (csqrt : ct_complex → ct_complex) (RAND_MAX : Nat) (rand : Nat → Nat)
    (plot : ct_logged) (n : Nat) : Option ct_logged :=
  (ct_ifs_loop csqrt RAND_MAX rand n 0 n (ifs_start plot)).map fun s => s.plot

/-! ## Call sequences -/

/-- A sequence of `ct_plot_add` calls, one after the other on the same plot; the
result lists the returned values and gives the plot after the last call. -/
def ct_plot_add_seq (self : ct_plot) : List (ct_complex × ct_rgb) → Option (List Bool × ct_plot)
  | [] => some ([], self)
  | call :: rest =>
    match ct_plot_add self call.1 call.2 with
    | none => none
    | some (ok, self1) =>
      match ct_plot_add_seq self1 rest with
      | none => none
      | some (oks, self2) => some (ok :: oks, self2)

/-- The call `ct_plot_addx(self, z, color)` repeated `n` times. -/
def ct_plot_addx_iter (z : ct_complex) (color : ct_rgb) : Nat → ct_plot → Option ct_plot
  | 0, self => some self
  | n + 1, self =>
    match ct_plot_addx self z color with
    | none => none
    | some (_, self1) => ct_plot_addx_iter z color n self1

/-! ## Notions used to state the properties -/

/-- The mapped pixel of `z` lies on the raster: `0 ≤ x < W` and `0 ≤ y < H`. -/
def pixel_ok (plane : ct_plane) (W H : Nat) (z : ct_complex) : Prop :=
  0 ≤ pixel_x plane z ∧ pixel_x plane z < (W : Int) ∧
  0 ≤ pixel_y plane z ∧ pixel_y plane z < (H : Int)

instance (plane : ct_plane) (W H : Nat) (z : ct_complex) : Decidable (pixel_ok plane W H z) := by
  unfold pixel_ok; infer_instance

/-- The row-major index `x + y * W` of the mapped pixel of `z`. -/
def cell_index (plane : ct_plane) (W : Nat) (z : ct_complex) : Nat :=
  (pixel_x plane z + pixel_y plane z * (W : Int)).toNat

/-- The call at `z` is in bounds and addresses the cell of index `i`. -/
def targets (plane : ct_plane) (W H : Nat) (i : Nat) (z : ct_complex) : Prop :=
  pixel_ok plane W H z ∧ cell_index plane W z = i

instance (plane : ct_plane) (W H i : Nat) (z : ct_complex) : Decidable (targets plane W H i z) := by
  unfold targets; infer_instance

/-- The calls of a sequence that are in bounds and address the cell of index `i`. -/
def calls_on (plane : ct_plane) (W H : Nat) (i : Nat) (calls : List (ct_complex × ct_rgb)) :
    List (ct_complex × ct_rgb) :=
  calls.filter fun call => decide (targets plane W H i call.1)

/-- The number of `ct_plot_addx` calls a cell still needs to reach
(255, 255, 255): the steps of 3 left below 252 in each channel, and one more. -/
def addx_calls_left (c : ct_rgb) : Nat :=
  (254 - c.r) / 3 + (254 - c.g) / 3 + (254 - c.b) / 3 + 1

/-- The clamp of a value to the interval from 0 to 1. -/
def clamp01 (q : ℚ) : ℚ := if q < 0 then 0 else if q > 1 then 1 else q

/-- The display byte as the specification words it: the colour sum scaled by
`log10(hitCount) / hitCount`, clamped to the interval from 0 to 1 on both sides,
scaled to 0..255 and rounded down. -/
def spec_density_byte (log10 : ℚ → ℚ) (sum hitCount : ℚ) : Int :=
  ⌊255 * clamp01 (sum * log10 hitCount / hitCount)⌋

/-- The facts about the library `log10` that the theorems on the density
normaliser rely on. -/
def is_log10 (log10 : ℚ → ℚ) : Prop :=
  log10 1 = 0 ∧ log10 10 = 1 ∧ log10 (1 / 10) = -1 ∧
  (∀ h, 1 ≤ h → 0 ≤ log10 h) ∧ (∀ h, 0 < h → h < 1 → log10 h < 0)

/-- A rational function with the properties `is_log10`: the chords of the
logarithm through its values at 1/10, 1 and 10.  It serves to instantiate the
parameter `log10` on concrete inputs. -/
def log10_chord (h : ℚ) : ℚ := if h ≤ 1 then (h - 1) * 10 / 9 else (h - 1) / 9

/-- The part of the plane that the three plotting functions do not drop:
`xmin - xstep < re < xmin + W * xstep` and `ymax - H * ystep < im < ymax + ystep`. -/
def in_window (plane : ct_plane) (W H : Nat) (z : ct_complex) : Prop :=
  plane.axes.xmin - plane.xstep < z.re ∧ z.re < plane.axes.xmin + (W : ℚ) * plane.xstep ∧
  plane.axes.ymax - (H : ℚ) * plane.ystep < z.im ∧ z.im < plane.axes.ymax + plane.ystep

/-- The point `z_k` of the forward orbit: `z_0 = z0` and `z_(k+1) = z_k^2 + c`. -/
def buddha_orbit (c z0 : ct_complex) : Nat → ct_complex
  | 0 => z0
  | k + 1 => cadd (cmul (buddha_orbit c z0 k) (buddha_orbit c z0 k)) c

/-- The colour of `ct_all_plotting_buddha` after the steps of index
`i, ..., i + m - 1`, started from `color`. -/
def buddha_colors : Nat → ct_rgb → Nat → ct_rgb
  | _, color, 0 => color
  | i, color, m + 1 => buddha_colors (i + 1) (buddha_color i color) m

/-- The calls of a forward sub-orbit of `k` steps from the index `i` on: call
number `j` is at the point `z_(j+1)` with the colour after `j + 1` steps. -/
def buddha_calls (c z : ct_complex) (i : Nat) (color : ct_rgb) (k : Nat) :
    List (ct_complex × ct_rgb) :=
  (List.range k).map fun j => (buddha_orbit c z (j + 1), buddha_colors i color (j + 1))

/-- The plot `out` is the plot `self` after the calls `new`, all of which
returned true: the record grew by `new`, and `new` run on the plot of `self`
gives the plot of `out`; the plane and the dimensions are kept and the canvas
is still valid. -/
def replays (self out : ct_logged) (new : List (ct_complex × ct_rgb)) : Prop :=
  out.calls = self.calls ++ new ∧
  ct_plot_add_seq self.plot new = some (List.replicate new.length true, out.plot) ∧
  out.plot.plane = self.plot.plane ∧
  out.plot.canvas.width = self.plot.canvas.width ∧
  out.plot.canvas.height = self.plot.canvas.height ∧
  out.plot.canvas.valid

/-- The bounds that the colour of `ct_ifs` keeps from sample to sample: no
weight is negative, green and blue are at most 0.681. -/
def ifs_color_ok (color : ct_rgb) : Prop :=
  0 ≤ color.meta.red ∧
  0 ≤ color.meta.green ∧ color.meta.green ≤ 681 / 1000 ∧
  0 ≤ color.meta.blue ∧ color.meta.blue ≤ 681 / 1000

/-- The weights of the three calls of the forward sub-orbit of the engine. -/
def buddha_weight_1 : ct_rgb :=
  { CT_RGB 0 0 0 with meta := { red := 3405 / 10000, blue := 2905 / 10000, green := 0, alpha := 0 } }

/-- The weights of the second call of the forward sub-orbit. -/
def buddha_weight_2 : ct_rgb :=
  { CT_RGB 0 0 0 with meta :=
      { red := 3405 / 10000, blue := 53575 / 100000, green := 3405 / 10000, alpha := 0 } }

/-- The weights of the third call of the forward sub-orbit. -/
def buddha_weight_3 : ct_rgb :=
  { CT_RGB 0 0 0 with meta :=
      { red := 3405 / 10000, blue := 608375 / 1000000, green := 3405 / 10000, alpha := 0 } }

/-- What holds of every call of the engine: its colour is one of the three
colours of the forward sub-orbit, or it keeps the bounds `ifs_color_ok` of the
colour of the outer walk. -/
def call_ok (call : ct_complex × ct_rgb) : Prop :=
  call.2 = buddha_weight_1 ∨ call.2 = buddha_weight_2 ∨ call.2 = buddha_weight_3 ∨
  ifs_color_ok call.2

/-- The number of samples of index above 100 among the `k` samples from the
index `i` on. -/
def samples_plotted (i k : Nat) : Nat := (i + k - 101) - (i - 101)

/-! ## The 4x4 scenario -/

/-- The axes of the plane `[-1,1] x [-1,1]`. -/
def axes4 : ct_axes := { xmin := -1, xmax := 1, ymin := -1, ymax := 1 }

/-- The plot that `ct_plot_init` builds from `axes4` and a zeroed 4x4 canvas. -/
def plot4 : ct_plot :=
  { plane := { axes := axes4, xstep := 2 / 3, ystep := 2 / 3 }, canvas := ct_canvas_zero 4 4 }

/-- The colour weights (red 1, green 0, blue 0). -/
def weight_red : ct_rgb := { CT_RGB 0 0 0 with meta := { red := 1, blue := 0, green := 0, alpha := 0 } }

/-- The axes of the program: `ct_axes_from_point` at the origin with radius 2. -/
def axes_main : ct_axes := ct_axes_from_point { re := 0, im := 0 } 2

/-- The origin of the plane. -/
def z_origin : ct_complex := { re := 0, im := 0 }

/-- The colour `{ 255, 255, 255 }` that `ct_circle` passes to `ct_plot_point`. -/
def white : ct_rgb := CT_RGB 255 255 255

/-- The plot `plot4` in which the cell of index 5 has the display bytes (252, 0, 0). -/
def plot4_r252 : ct_plot :=
  { plot4 with canvas := { plot4.canvas with
      buf := (List.replicate 16 (CT_RGB 0 0 0)).set 5 (CT_RGB 252 0 0) } }

/-- A cell with red sum 1 and hit count 1/10. -/
def cell_tenth : ct_rgb :=
  { CT_RGB 0 0 0 with meta := { red := 1, blue := 0, green := 0, alpha := 1 / 10 } }

/-- The zeroed 4x4 canvas in which the cell of index 5 is `cell_tenth`. -/
def canvas4_tenth : ct_canvas :=
  { ct_canvas_zero 4 4 with buf := (List.replicate 16 (CT_RGB 0 0 0)).set 5 cell_tenth }

/-- A cell with hit count 10 and the colour sums 3, 20, 0 (red, green, blue). -/
def cell_ten : ct_rgb :=
  { CT_RGB 7 7 7 with meta := { red := 3, blue := 0, green := 20, alpha := 10 } }

/-- The zeroed 4x4 canvas in which the cell of index 5 is `cell_ten`. -/
def canvas4_ten : ct_canvas :=
  { ct_canvas_zero 4 4 with buf := (List.replicate 16 (CT_RGB 0 0 0)).set 5 cell_ten }

/-- A stand-in for the library complex square root on concrete inputs: the
exact principal root at `3 + 4i` (which is `2 + i`), at 0 and at 1, and the
identity elsewhere.  The theorems hold for every function in its place. -/
def csqrt_probe (d : ct_complex) : ct_complex :=
  if d = { re := 3, im := 4 } then { re := 2, im := 1 } else d

/-- The draws that are all 0. -/
def rand_zero : Nat → Nat := fun _ => 0

/-- The draws of a run: the first draw of the sample of index 101 is 32767,
all other first draws are 0, and every second draw is 32767. -/
def rand_hot : Nat → Nat := fun k => if k % 2 = 1 then 32767 else if k = 202 then 32767 else 0

/-- A state of the loop of `ct_ifs` with the current iterate `3 + 6i`, on the
zeroed 4x4 plot. -/
def state_probe : ifs_state :=
  { z := { re := 3, im := 6 }, c := { re := 0, im := 0 }, color := CT_RGB 0 0 0,
    plot := { plot := plot4, calls := [] } }

/-- Axes whose y span is zero. -/
def axes_flat : ct_axes := { xmin := -1, xmax := 1, ymin := 0, ymax := 0 }

/-- A value left of the viewport of `plot4` by half a step. -/
def z_left : ct_complex := { re := -4 / 3, im := 0 }

/-- The single call of the scenario: `z = (0, 0)` with the weights `weight_red`. -/
def calls4 : List (ct_complex × ct_rgb) := [(z_origin, weight_red)]

/-- The cell with hit count 1 and red sum 1, all else zero. -/
def cell_hit : ct_rgb := { CT_RGB 0 0 0 with meta := { red := 1, blue := 0, green := 0, alpha := 1 } }

/-- The plot `plot4` in which the cell of column 1 and row 1 (index 5) is `cell_hit`. -/
def plot4_hit : ct_plot :=
  { plot4 with canvas := { plot4.canvas with buf := (List.replicate 16 (CT_RGB 0 0 0)).set 5 cell_hit } }

/-! ## Machine arithmetic and the shared frame of the plotting functions -/

theorem ct_plot_addx_eq (self : ct_plot) (z : ct_complex) (color : ct_rgb) :
    ct_plot_addx self z color = plot_cell self z addx_rgb true := rfl

theorem ct_plot_point_eq (self : ct_plot) (z : ct_complex) (color : ct_rgb) :
    ct_plot_point self z color = plot_cell self z (fun _ => color) false := rfl

theorem ct_plot_add_eq (self : ct_plot) (z : ct_complex) (color : ct_rgb) :
    ct_plot_add self z color = plot_cell self z (add_rgb color) true := rfl

theorem to_long_le (w : Nat) : to_long w ≤ (w : Int) := by
  unfold to_long ULONG_SIZE
  split <;> omega

theorem to_long_small {w : Nat} (h : w < 2 ^ 63) : to_long w = (w : Int) := by
  unfold to_long ULONG_SIZE
  have h1 : w % 2 ^ 64 = w := Nat.mod_eq_of_lt (by omega)
  rw [h1, if_pos h]

theorem in_bounds_pixel_ok {self : ct_plot} {z : ct_complex} (h : in_bounds self z) :
    pixel_ok self.plane self.canvas.width self.canvas.height z := by
  obtain ⟨h1, h2, h3, h4⟩ := h
  have hw := to_long_le self.canvas.width
  have hh := to_long_le self.canvas.height
  exact ⟨by omega, by omega, by omega, by omega⟩

theorem valid_lt_ulong {c : ct_canvas} (hv : c.valid) : c.width * c.height < ULONG_SIZE := by
  have h := hv.1
  unfold ULONG_SIZE
  omega

theorem valid_dims_small {c : ct_canvas} (hv : c.valid) (hW : 1 ≤ c.width) (hH : 1 ≤ c.height) :
    c.width < 2 ^ 63 ∧ c.height < 2 ^ 63 := by
  have h1 : c.width * 1 ≤ c.width * c.height := Nat.mul_le_mul_left _ hH
  have h2 : 1 * c.height ≤ c.width * c.height := Nat.mul_le_mul_right _ hW
  have h3 := hv.1
  omega

theorem pixel_ok_in_bounds {self : ct_plot} {z : ct_complex} (hv : self.canvas.valid)
    (h : pixel_ok self.plane self.canvas.width self.canvas.height z) : in_bounds self z := by
  obtain ⟨h1, h2, h3, h4⟩ := h
  have hs := valid_dims_small hv (by omega) (by omega)
  unfold in_bounds
  rw [to_long_small hs.1, to_long_small hs.2]
  exact ⟨by omega, h2, by omega, h4⟩

theorem in_bounds_iff_pixel_ok {self : ct_plot} (hv : self.canvas.valid) (z : ct_complex) :
    in_bounds self z ↔ pixel_ok self.plane self.canvas.width self.canvas.height z :=
  ⟨in_bounds_pixel_ok, pixel_ok_in_bounds hv⟩

theorem pixel_ok_index_lt {plane : ct_plane} {W H : Nat} {z : ct_complex}
    (h : pixel_ok plane W H z) :
    0 ≤ pixel_x plane z + pixel_y plane z * (W : Int) ∧
    pixel_x plane z + pixel_y plane z * (W : Int) < ((W * H : Nat) : Int) := by
  obtain ⟨h1, h2, h3, h4⟩ := h
  have h5 : pixel_y plane z * (W : Int) ≤ ((H : Int) - 1) * (W : Int) :=
    mul_le_mul_of_nonneg_right (by omega) (by omega)
  have h6 : 0 ≤ pixel_y plane z * (W : Int) := mul_nonneg h3 (by omega)
  constructor
  · omega
  · push_cast
    nlinarith

theorem cell_index_lt {plane : ct_plane} {W H : Nat} {z : ct_complex}
    (h : pixel_ok plane W H z) : cell_index plane W z < W * H := by
  have h1 := pixel_ok_index_lt h
  unfold cell_index
  omega

theorem pixel_index_eq {self : ct_plot} {z : ct_complex} (hv : self.canvas.valid)
    (h : pixel_ok self.plane self.canvas.width self.canvas.height z) :
    pixel_index self z = cell_index self.plane self.canvas.width z := by
  have h1 := pixel_ok_index_lt h
  have h2 := valid_lt_ulong hv
  unfold pixel_index cell_index to_ulong
  unfold ULONG_SIZE at *
  rw [Int.emod_eq_of_lt h1.1 (by omega)]

theorem plot_cell_miss {self : ct_plot} {z : ct_complex} (upd : ct_rgb → ct_rgb) (miss : Bool)
    (h : ¬ in_bounds self z) : plot_cell self z upd miss = some (miss, self) := by
  unfold plot_cell
  rw [if_neg h]

theorem plot_cell_hit {self : ct_plot} {z : ct_complex} (upd : ct_rgb → ct_rgb) (miss : Bool)
    (hv : self.canvas.valid) (h : in_bounds self z) :
    ∃ exist, self.canvas.buf[cell_index self.plane self.canvas.width z]? = some exist ∧
      plot_cell self z upd miss = some (true, { self with canvas := { self.canvas with
        buf := self.canvas.buf.set (cell_index self.plane self.canvas.width z) (upd exist) } }) := by
  have hok := in_bounds_pixel_ok h
  have hlt := cell_index_lt hok
  have hidx := pixel_index_eq hv hok
  have hlen : cell_index self.plane self.canvas.width z < self.canvas.buf.length := by
    rw [hv.2]; exact hlt
  have hmod : (self.canvas.height * self.canvas.width) % ULONG_SIZE
      = self.canvas.width * self.canvas.height := by
    rw [Nat.mul_comm]; exact Nat.mod_eq_of_lt (valid_lt_ulong hv)
  refine ⟨self.canvas.buf[cell_index self.plane self.canvas.width z], ?_, ?_⟩
  · exact List.getElem?_eq_getElem hlen
  · unfold plot_cell
    rw [if_pos h]
    simp only [hidx, hmod, if_pos hlt, List.getElem?_eq_getElem hlen]

theorem plot_cell_valid {self out : ct_plot} {z : ct_complex} {upd : ct_rgb → ct_rgb}
    {miss ok : Bool} (hv : self.canvas.valid) (h : plot_cell self z upd miss = some (ok, out)) :
    out.plane = self.plane ∧ out.canvas.width = self.canvas.width ∧
    out.canvas.height = self.canvas.height ∧ out.canvas.valid := by
  by_cases hb : in_bounds self z
  · obtain ⟨exist, _, h2⟩ := plot_cell_hit upd miss hv hb
    rw [h2] at h
    simp only [Option.some.injEq, Prod.mk.injEq] at h
    obtain ⟨_, rfl⟩ := h
    exact ⟨rfl, rfl, rfl, by simpa [ct_canvas.valid] using hv⟩
  · rw [plot_cell_miss upd miss hb] at h
    simp only [Option.some.injEq, Prod.mk.injEq] at h
    obtain ⟨_, rfl⟩ := h
    exact ⟨rfl, rfl, rfl, hv⟩

/-! ## Accumulation -/

theorem plot_cell_step (self : ct_plot) (z : ct_complex) (upd : ct_rgb → ct_rgb)
    (hv : self.canvas.valid) :
    ∃ out, plot_cell self z upd true = some (true, out) ∧
      out.plane = self.plane ∧ out.canvas.width = self.canvas.width ∧
      out.canvas.height = self.canvas.height ∧ out.canvas.valid ∧
      ∀ i c0, self.canvas.buf[i]? = some c0 →
        out.canvas.buf[i]? = some
          (if targets self.plane self.canvas.width self.canvas.height i z then upd c0 else c0) := by
  by_cases hb : in_bounds self z
  · obtain ⟨exist, h1, h2⟩ := plot_cell_hit upd true hv hb
    have hframe := plot_cell_valid hv h2
    refine ⟨_, h2, hframe.1, hframe.2.1, hframe.2.2.1, hframe.2.2.2, ?_⟩
    intro i c0 hi
    have hok := in_bounds_pixel_ok hb
    by_cases hidx : cell_index self.plane self.canvas.width z = i
    · subst hidx
      have hc : exist = c0 := by rw [h1] at hi; exact Option.some.inj hi
      have hlen : cell_index self.plane self.canvas.width z < self.canvas.buf.length := by
        rw [hv.2]; exact cell_index_lt hok
      simp [targets, hok, hc, List.getElem?_set, hlen]
    · simp [targets, hidx, List.getElem?_set, hi]
  · refine ⟨self, plot_cell_miss upd true hb, rfl, rfl, rfl, hv, ?_⟩
    intro i c0 hi
    have hno : ¬ pixel_ok self.plane self.canvas.width self.canvas.height z :=
      fun h => hb ((in_bounds_iff_pixel_ok hv z).2 h)
    simp [targets, hno, hi]

theorem ct_plot_add_seq_spec (calls : List (ct_complex × ct_rgb)) :
    ∀ self : ct_plot, self.canvas.valid →
    ∃ out, ct_plot_add_seq self calls = some (List.replicate calls.length true, out) ∧
      out.plane = self.plane ∧ out.canvas.width = self.canvas.width ∧
      out.canvas.height = self.canvas.height ∧ out.canvas.valid ∧
      ∀ i c0, self.canvas.buf[i]? = some c0 → ∃ c1, out.canvas.buf[i]? = some c1 ∧
        c1.r = c0.r ∧ c1.g = c0.g ∧ c1.b = c0.b ∧
        c1.meta.alpha = c0.meta.alpha +
          ((calls_on self.plane self.canvas.width self.canvas.height i calls).length : ℚ) ∧
        c1.meta.red = c0.meta.red +
          ((calls_on self.plane self.canvas.width self.canvas.height i calls).map
            fun call => call.2.meta.red).sum ∧
        c1.meta.green = c0.meta.green +
          ((calls_on self.plane self.canvas.width self.canvas.height i calls).map
            fun call => call.2.meta.green).sum ∧
        c1.meta.blue = c0.meta.blue +
          ((calls_on self.plane self.canvas.width self.canvas.height i calls).map
            fun call => call.2.meta.blue).sum := by
  induction calls with
  | nil =>
    intro self hv
    exact ⟨self, rfl, rfl, rfl, rfl, hv, fun i c0 hi => ⟨c0, hi, rfl, rfl, rfl, by simp [calls_on]⟩⟩
  | cons call rest ih =>
    intro self hv
    obtain ⟨mid, hstep, hp, hw, hh, hvm, hcells⟩ :=
      plot_cell_step self call.1 (add_rgb call.2) hv
    obtain ⟨out, hrest, hp2, hw2, hh2, hvo, hcells2⟩ := ih mid hvm
    refine ⟨out, ?_, hp2.trans hp, hw2.trans hw, hh2.trans hh, hvo, ?_⟩
    · show (match ct_plot_add self call.1 call.2 with
        | none => none
        | some (ok, self1) =>
          match ct_plot_add_seq self1 rest with
          | none => none
          | some (oks, self2) => some (ok :: oks, self2)) = _
      rw [ct_plot_add_eq, hstep]
      simp only [hrest, List.length_cons, List.replicate_succ]
    · intro i c0 hi
      obtain ⟨c1, hc1, hr, hg, hb, ha, hred, hgreen, hblue⟩ := hcells2 i _ (hcells i c0 hi)
      rw [hp, hw, hh] at ha hred hgreen hblue
      refine ⟨c1, hc1, ?_, ?_, ?_, ?_, ?_, ?_, ?_⟩
      · rw [hr]; split <;> rfl
      · rw [hg]; split <;> rfl
      · rw [hb]; split <;> rfl
      · rw [ha]
        by_cases ht : targets self.plane self.canvas.width self.canvas.height i call.1
        · simp [calls_on, List.filter_cons, ht, add_rgb]; ring
        · simp [calls_on, List.filter_cons, ht]
      · rw [hred]
        by_cases ht : targets self.plane self.canvas.width self.canvas.height i call.1
        · simp [calls_on, List.filter_cons, ht, add_rgb]; ring
        · simp [calls_on, List.filter_cons, ht]
      · rw [hgreen]
        by_cases ht : targets self.plane self.canvas.width self.canvas.height i call.1
        · simp [calls_on, List.filter_cons, ht, add_rgb]; ring
        · simp [calls_on, List.filter_cons, ht]
      · rw [hblue]
        by_cases ht : targets self.plane self.canvas.width self.canvas.height i call.1
        · simp [calls_on, List.filter_cons, ht, add_rgb]; ring
        · simp [calls_on, List.filter_cons, ht]

/-- C1: on a valid canvas (of any width and height, so also of width and height
at least 2), whatever the viewport and the initial buffer, every call of a sequence of `ct_plot_add` calls returns
true, the plane and the dimensions are kept, and afterwards each cell has its
display bytes unchanged, its hit count grown by the number of calls whose mapped
pixel is in bounds and has the index of the cell, and each colour sum grown by
the sum of the weights of those calls; a call mapped out of bounds returns true
and leaves the plot as it was. -/
theorem ct_plot_add_accumulates (self : ct_plot) (calls : List (ct_complex × ct_rgb))
    (hv : self.canvas.valid) :
    (∀ z color, ¬ pixel_ok self.plane self.canvas.width self.canvas.height z →
      ct_plot_add self z color = some (true, self)) ∧
    ∃ out, ct_plot_add_seq self calls = some (List.replicate calls.length true, out) ∧
      out.plane = self.plane ∧ out.canvas.width = self.canvas.width ∧
      out.canvas.height = self.canvas.height ∧
      out.canvas.buf.length = self.canvas.buf.length ∧
      ∀ i c0, self.canvas.buf[i]? = some c0 → ∃ c1, out.canvas.buf[i]? = some c1 ∧
        c1.r = c0.r ∧ c1.g = c0.g ∧ c1.b = c0.b ∧
        c1.meta.alpha = c0.meta.alpha +
          ((calls_on self.plane self.canvas.width self.canvas.height i calls).length : ℚ) ∧
        c1.meta.red = c0.meta.red +
          ((calls_on self.plane self.canvas.width self.canvas.height i calls).map
            fun call => call.2.meta.red).sum ∧
        c1.meta.green = c0.meta.green +
          ((calls_on self.plane self.canvas.width self.canvas.height i calls).map
            fun call => call.2.meta.green).sum ∧
        c1.meta.blue = c0.meta.blue +
          ((calls_on self.plane self.canvas.width self.canvas.height i calls).map
            fun call => call.2.meta.blue).sum := by
  constructor
  · intro z color hno
    rw [ct_plot_add_eq]
    exact plot_cell_miss _ _ (fun h => hno (in_bounds_pixel_ok h))
  · obtain ⟨out, h1, h2, h3, h4, h5, h6⟩ := ct_plot_add_seq_spec calls self hv
    refine ⟨out, h1, h2, h3, h4, ?_, h6⟩
    rw [h5.2, hv.2, h3, h4]

/-- The 4x4 scenario of C1: `ct_plot_init` on the plane `[-1,1] x [-1,1]` and a
zeroed 4x4 canvas gives `plot4`; the single call at `z = (0, 0)` with weights
(1, 0, 0) returns true and leaves exactly the cell of index 5 (column 1, row 1)
with hit count 1 and red sum 1. -/
theorem ct_plot_add_accumulates_witness :
    ct_plot_init axes4 (ct_canvas_zero 4 4) = some plot4 ∧
    ct_plot_add_seq plot4 calls4 = some ([true], plot4_hit) ∧
    plot4.canvas.valid ∧
    ((∀ z color, ¬ pixel_ok plot4.plane plot4.canvas.width plot4.canvas.height z →
      ct_plot_add plot4 z color = some (true, plot4)) ∧
    ∃ out, ct_plot_add_seq plot4 calls4 = some (List.replicate calls4.length true, out) ∧
      out.plane = plot4.plane ∧ out.canvas.width = plot4.canvas.width ∧
      out.canvas.height = plot4.canvas.height ∧
      out.canvas.buf.length = plot4.canvas.buf.length ∧
      ∀ i c0, plot4.canvas.buf[i]? = some c0 → ∃ c1, out.canvas.buf[i]? = some c1 ∧
        c1.r = c0.r ∧ c1.g = c0.g ∧ c1.b = c0.b ∧
        c1.meta.alpha = c0.meta.alpha +
          ((calls_on plot4.plane plot4.canvas.width plot4.canvas.height i calls4).length : ℚ) ∧
        c1.meta.red = c0.meta.red +
          ((calls_on plot4.plane plot4.canvas.width plot4.canvas.height i calls4).map
            fun call => call.2.meta.red).sum ∧
        c1.meta.green = c0.meta.green +
          ((calls_on plot4.plane plot4.canvas.width plot4.canvas.height i calls4).map
            fun call => call.2.meta.green).sum ∧
        c1.meta.blue = c0.meta.blue +
          ((calls_on plot4.plane plot4.canvas.width plot4.canvas.height i calls4).map
            fun call => call.2.meta.blue).sum) :=
  ⟨by decide!, by decide!, by decide, ct_plot_add_accumulates plot4 calls4 (by decide)⟩

/-! ## Viewport -/

theorem fabs_of_pos {q : ℚ} (h : 0 < q) : fabs q = q := by
  unfold fabs
  rw [if_pos h.le]

theorem ct_plane_init_spec (axes : ct_axes) (w h : Nat) (hw : 0 < w) (hh : 0 < h)
    (hx : axes.xmin < axes.xmax) (hy : axes.ymin < axes.ymax) :
    ∃ p, ct_plane_init axes w h = some p ∧
      p.xstep = (p.axes.xmax - p.axes.xmin) / (w : ℚ) ∧
      p.ystep = (p.axes.ymax - p.axes.ymin) / (h : ℚ) ∧
      p.axes.xmin ≤ axes.xmin ∧ axes.xmax ≤ p.axes.xmax ∧
      p.axes.ymin ≤ axes.ymin ∧ axes.ymax ≤ p.axes.ymax ∧
      (p.axes.ymax - p.axes.ymin) / (p.axes.xmax - p.axes.xmin) = (h : ℚ) / (w : ℚ) ∧
      p.axes.xmin + p.axes.xmax = axes.xmin + axes.xmax ∧
      p.axes.ymin + p.axes.ymax = axes.ymin + axes.ymax := by
  have hwq : (0 : ℚ) < (w : ℚ) := by exact_mod_cast hw
  have hhq : (0 : ℚ) < (h : ℚ) := by exact_mod_cast hh
  have haw : 0 < axes.xmax - axes.xmin := by linarith
  have hah : 0 < axes.ymax - axes.ymin := by linarith
  have hd : 0 < (h : ℚ) / (w : ℚ) := div_pos hhq hwq
  have ha : 0 < (axes.ymax - axes.ymin) / (axes.xmax - axes.xmin) := div_pos hah haw
  have hcond : w > 0 ∧ h > 0 ∧ axes.xmax - axes.xmin > 0 := ⟨hw, hh, haw⟩
  unfold ct_plane_init
  simp only [if_pos hcond, fabs_of_pos hd, fabs_of_pos ha]
  refine ⟨_, rfl, rfl, rfl, ?_⟩
  by_cases h1 : (h : ℚ) / (w : ℚ) > (axes.ymax - axes.ymin) / (axes.xmax - axes.xmin)
  · simp only [if_pos h1]
    have hq : 1 < (h : ℚ) / (w : ℚ) / ((axes.ymax - axes.ymin) / (axes.xmax - axes.xmin)) :=
      (one_lt_div ha).2 h1
    have hex : 0 ≤ (axes.ymax - axes.ymin) *
        ((h : ℚ) / (w : ℚ) / ((axes.ymax - axes.ymin) / (axes.xmax - axes.xmin)) - 1) / 2 :=
      div_nonneg (mul_nonneg hah.le (by linarith)) (by norm_num)
    refine ⟨le_refl _, le_refl _, by linarith, by linarith, ?_, trivial, by ring⟩
    field_simp
    ring
  · simp only [if_neg h1]
    by_cases h2 : (h : ℚ) / (w : ℚ) < (axes.ymax - axes.ymin) / (axes.xmax - axes.xmin)
    · simp only [if_pos h2]
      have hq : 1 < (axes.ymax - axes.ymin) / (axes.xmax - axes.xmin) / ((h : ℚ) / (w : ℚ)) :=
        (one_lt_div hd).2 h2
      have hex : 0 ≤ (axes.xmax - axes.xmin) *
          ((axes.ymax - axes.ymin) / (axes.xmax - axes.xmin) / ((h : ℚ) / (w : ℚ)) - 1) / 2 :=
        div_nonneg (mul_nonneg haw.le (by linarith)) (by norm_num)
      refine ⟨by linarith, by linarith, le_refl _, le_refl _, ?_, by ring, trivial⟩
      have hne : axes.xmax +
          (axes.xmax - axes.xmin) *
            ((axes.ymax - axes.ymin) / (axes.xmax - axes.xmin) / ((h : ℚ) / (w : ℚ)) - 1) / 2 -
          (axes.xmin - (axes.xmax - axes.xmin) *
            ((axes.ymax - axes.ymin) / (axes.xmax - axes.xmin) / ((h : ℚ) / (w : ℚ)) - 1) / 2)
          = (axes.ymax - axes.ymin) * (w : ℚ) / (h : ℚ) := by
        field_simp
        ring
      rw [hne]
      field_simp
      ring
    · simp only [if_neg h2]
      refine ⟨le_refl _, le_refl _, le_refl _, le_refl _, ?_, trivial, trivial⟩
      exact (le_antisymm (not_lt.1 h1) (not_lt.1 h2)).symm

/-- C2: for a raster with `w > 0` and `h > 0` and axes with `xmax > xmin` and
`ymax > ymin`, `ct_plane_init` succeeds and the axes it produces have
`(ymax' - ymin') / (xmax' - xmin') = h / w` exactly, with the centre preserved:
`(xmin' + xmax') / 2 = (xmin + xmax) / 2` and `(ymin' + ymax') / 2 = (ymin + ymax) / 2`. -/
theorem ct_plane_init_aspect (axes : ct_axes) (w h : Nat) (hw : 0 < w) (hh : 0 < h)
    (hx : axes.xmin < axes.xmax) (hy : axes.ymin < axes.ymax) :
    ∃ p, ct_plane_init axes w h = some p ∧
      (p.axes.ymax - p.axes.ymin) / (p.axes.xmax - p.axes.xmin) = (h : ℚ) / (w : ℚ) ∧
      (p.axes.xmin + p.axes.xmax) / 2 = (axes.xmin + axes.xmax) / 2 ∧
      (p.axes.ymin + p.axes.ymax) / 2 = (axes.ymin + axes.ymax) / 2 := by
  obtain ⟨p, hp, _, _, _, _, _, _, hr, hcx, hcy⟩ := ct_plane_init_spec axes w h hw hh hx hy
  exact ⟨p, hp, hr, by rw [hcx], by rw [hcy]⟩

/-- C2 at the program's own input: the square `[-2,2] x [-2,2]` and the raster
1919 x 1079 that `ct_plot_init` passes for the 1920 x 1080 canvas. -/
theorem ct_plane_init_aspect_witness :
    0 < 1919 ∧ 0 < 1079 ∧ axes_main.xmin < axes_main.xmax ∧ axes_main.ymin < axes_main.ymax ∧
    ∃ p, ct_plane_init axes_main 1919 1079 = some p ∧
      (p.axes.ymax - p.axes.ymin) / (p.axes.xmax - p.axes.xmin) = ((1079 : Nat) : ℚ) / ((1919 : Nat) : ℚ) ∧
      (p.axes.xmin + p.axes.xmax) / 2 = (axes_main.xmin + axes_main.xmax) / 2 ∧
      (p.axes.ymin + p.axes.ymax) / 2 = (axes_main.ymin + axes_main.ymax) / 2 :=
  ⟨by decide, by decide, by decide!, by decide!,
    ct_plane_init_aspect axes_main 1919 1079 (by decide) (by decide) (by decide!) (by decide!)⟩

/-! ## The initialised plot and the mapping of the viewport -/

theorem trunc_of_nonneg {q : ℚ} (h : 0 ≤ q) : trunc q = ⌊q⌋ := by
  unfold trunc
  rw [if_pos h]

theorem trunc_range {q : ℚ} {n : Nat} (h0 : 0 ≤ q) (hn : q ≤ (n : ℚ)) :
    0 ≤ trunc q ∧ trunc q ≤ (n : Int) := by
  rw [trunc_of_nonneg h0]
  refine ⟨Int.floor_nonneg.2 h0, ?_⟩
  have h1 : ⌊q⌋ ≤ ⌊((n : Int) : ℚ)⌋ := Int.floor_le_floor (by exact_mod_cast hn)
  rwa [Int.floor_intCast] at h1

theorem ulong_pred {w : Nat} (h1 : 1 ≤ w) (h2 : w < ULONG_SIZE) :
    (w + ULONG_SIZE - 1) % ULONG_SIZE = w - 1 := by
  unfold ULONG_SIZE at *
  omega

theorem ct_plot_init_spec (axes : ct_axes) (canvas : ct_canvas) (hv : canvas.valid)
    (hW : 2 ≤ canvas.width) (hH : 2 ≤ canvas.height)
    (hx : axes.xmin < axes.xmax) (hy : axes.ymin < axes.ymax) :
    ∃ plane, ct_plane_init axes (canvas.width - 1) (canvas.height - 1) = some plane ∧
      ct_plot_init axes canvas = some { plane := plane, canvas := canvas } ∧
      0 < plane.xstep ∧ 0 < plane.ystep ∧
      plane.xstep * ((canvas.width - 1 : Nat) : ℚ) = plane.axes.xmax - plane.axes.xmin ∧
      plane.ystep * ((canvas.height - 1 : Nat) : ℚ) = plane.axes.ymax - plane.axes.ymin := by
  have hsmall := valid_dims_small hv (by omega) (by omega)
  have hw1 : (canvas.width + ULONG_SIZE - 1) % ULONG_SIZE = canvas.width - 1 :=
    ulong_pred (by omega) (by unfold ULONG_SIZE; omega)
  have hh1 : (canvas.height + ULONG_SIZE - 1) % ULONG_SIZE = canvas.height - 1 :=
    ulong_pred (by omega) (by unfold ULONG_SIZE; omega)
  obtain ⟨p, hp, hxs, hys, h1, h2, h3, h4, _, _, _⟩ :=
    ct_plane_init_spec axes (canvas.width - 1) (canvas.height - 1) (by omega) (by omega) hx hy
  have hwq : (0 : ℚ) < ((canvas.width - 1 : Nat) : ℚ) := by
    exact_mod_cast (show 0 < canvas.width - 1 by omega)
  have hhq : (0 : ℚ) < ((canvas.height - 1 : Nat) : ℚ) := by
    exact_mod_cast (show 0 < canvas.height - 1 by omega)
  refine ⟨p, hp, ?_, ?_, ?_, ?_, ?_⟩
  · unfold ct_plot_init
    rw [hw1, hh1, hp]
    rfl
  · rw [hxs]; exact div_pos (by linarith) hwq
  · rw [hys]; exact div_pos (by linarith) hhq
  · rw [hxs]; exact div_mul_cancel₀ _ hwq.ne'
  · rw [hys]; exact div_mul_cancel₀ _ hhq.ne'

theorem pixel_ok_of_viewport {plane : ct_plane} {W H : Nat} (hW : 1 ≤ W) (hH : 1 ≤ H)
    (hxs : 0 < plane.xstep) (hys : 0 < plane.ystep)
    (hxw : plane.xstep * ((W - 1 : Nat) : ℚ) = plane.axes.xmax - plane.axes.xmin)
    (hyh : plane.ystep * ((H - 1 : Nat) : ℚ) = plane.axes.ymax - plane.axes.ymin)
    {z : ct_complex} (h1 : plane.axes.xmin ≤ z.re) (h2 : z.re ≤ plane.axes.xmax)
    (h3 : plane.axes.ymin ≤ z.im) (h4 : z.im ≤ plane.axes.ymax) :
    pixel_ok plane W H z := by
  have hx0 : 0 ≤ (z.re - plane.axes.xmin) / plane.xstep := div_nonneg (by linarith) hxs.le
  have hy0 : 0 ≤ (plane.axes.ymax - z.im) / plane.ystep := div_nonneg (by linarith) hys.le
  have hx1 : (z.re - plane.axes.xmin) / plane.xstep ≤ ((W - 1 : Nat) : ℚ) := by
    rw [div_le_iff₀ hxs]; linarith
  have hy1 : (plane.axes.ymax - z.im) / plane.ystep ≤ ((H - 1 : Nat) : ℚ) := by
    rw [div_le_iff₀ hys]; linarith
  have hx := trunc_range hx0 hx1
  have hy := trunc_range hy0 hy1
  unfold pixel_ok pixel_x pixel_y
  omega

/-- C3: for a valid canvas of width and height at least 2 and axes with
`xmin < xmax` and `ymin < ymax`, `ct_plot_init` succeeds, and in the plot it
builds every `z` inside the corrected viewport, edges included, maps to a pixel
with `0 ≤ x < W` and `0 ≤ y < H` that passes the bounds check of the source; for
every pixel that passes the bounds check the index `x + y * W` is below `W * H`
and satisfies the assertion; hence `ct_plot_add`, `ct_plot_point` and
`ct_plot_addx` never fail their assertion, whatever `z` and the colour. -/
theorem ct_plot_init_in_bounds (axes : ct_axes) (canvas : ct_canvas) (hv : canvas.valid)
    (hW : 2 ≤ canvas.width) (hH : 2 ≤ canvas.height)
    (hx : axes.xmin < axes.xmax) (hy : axes.ymin < axes.ymax) :
    ∃ plot, ct_plot_init axes canvas = some plot ∧ plot.canvas = canvas ∧
      (∀ z : ct_complex, plot.plane.axes.xmin ≤ z.re → z.re ≤ plot.plane.axes.xmax →
        plot.plane.axes.ymin ≤ z.im → z.im ≤ plot.plane.axes.ymax →
        (0 ≤ pixel_x plot.plane z ∧ pixel_x plot.plane z < (canvas.width : Int) ∧
         0 ≤ pixel_y plot.plane z ∧ pixel_y plot.plane z < (canvas.height : Int)) ∧
        in_bounds plot z) ∧
      (∀ z : ct_complex, in_bounds plot z →
        pixel_x plot.plane z + pixel_y plot.plane z * (canvas.width : Int)
          < ((canvas.width * canvas.height : Nat) : Int) ∧
        pixel_index plot z < (canvas.height * canvas.width) % ULONG_SIZE ∧
        pixel_index plot z < canvas.buf.length) ∧
      (∀ (z : ct_complex) (color : ct_rgb),
        (ct_plot_add plot z color).isSome ∧ (ct_plot_point plot z color).isSome ∧
        (ct_plot_addx plot z color).isSome) := by
  obtain ⟨plane, _, hinit, hxs, hys, hxw, hyh⟩ := ct_plot_init_spec axes canvas hv hW hH hx hy
  refine ⟨{ plane := plane, canvas := canvas }, hinit, rfl, ?_, ?_, ?_⟩
  · intro z h1 h2 h3 h4
    have hok : pixel_ok plane canvas.width canvas.height z :=
      pixel_ok_of_viewport (by omega) (by omega) hxs hys hxw hyh h1 h2 h3 h4
    exact ⟨hok, pixel_ok_in_bounds hv hok⟩
  · intro z hb
    have hok := in_bounds_pixel_ok hb
    have hidx : pixel_index { plane := plane, canvas := canvas } z
        = cell_index plane canvas.width z := pixel_index_eq hv hok
    have hlt : cell_index plane canvas.width z < canvas.width * canvas.height :=
      cell_index_lt hok
    refine ⟨(pixel_ok_index_lt hok).2, ?_, ?_⟩
    · rw [hidx, Nat.mul_comm, Nat.mod_eq_of_lt (valid_lt_ulong hv)]; exact hlt
    · rw [hidx, hv.2]; exact hlt
  · intro z color
    have key : ∀ (upd : ct_rgb → ct_rgb) (miss : Bool),
        (plot_cell { plane := plane, canvas := canvas } z upd miss).isSome := by
      intro upd miss
      by_cases hb : in_bounds { plane := plane, canvas := canvas } z
      · obtain ⟨_, _, h⟩ := plot_cell_hit upd miss hv hb
        rw [h]; rfl
      · rw [plot_cell_miss upd miss hb]; rfl
    exact ⟨by rw [ct_plot_add_eq]; exact key _ _, by rw [ct_plot_point_eq]; exact key _ _,
      by rw [ct_plot_addx_eq]; exact key _ _⟩

/-- C3 on the zeroed 4x4 canvas with the plane `[-1,1] x [-1,1]`. -/
theorem ct_plot_init_in_bounds_witness :
    (ct_canvas_zero 4 4).valid ∧ 2 ≤ (ct_canvas_zero 4 4).width ∧
    2 ≤ (ct_canvas_zero 4 4).height ∧ axes4.xmin < axes4.xmax ∧ axes4.ymin < axes4.ymax ∧
    ∃ plot, ct_plot_init axes4 (ct_canvas_zero 4 4) = some plot ∧
      plot.canvas = ct_canvas_zero 4 4 ∧
      (∀ z : ct_complex, plot.plane.axes.xmin ≤ z.re → z.re ≤ plot.plane.axes.xmax →
        plot.plane.axes.ymin ≤ z.im → z.im ≤ plot.plane.axes.ymax →
        (0 ≤ pixel_x plot.plane z ∧ pixel_x plot.plane z < ((ct_canvas_zero 4 4).width : Int) ∧
         0 ≤ pixel_y plot.plane z ∧ pixel_y plot.plane z < ((ct_canvas_zero 4 4).height : Int)) ∧
        in_bounds plot z) ∧
      (∀ z : ct_complex, in_bounds plot z →
        pixel_x plot.plane z + pixel_y plot.plane z * ((ct_canvas_zero 4 4).width : Int)
          < (((ct_canvas_zero 4 4).width * (ct_canvas_zero 4 4).height : Nat) : Int) ∧
        pixel_index plot z
          < ((ct_canvas_zero 4 4).height * (ct_canvas_zero 4 4).width) % ULONG_SIZE ∧
        pixel_index plot z < (ct_canvas_zero 4 4).buf.length) ∧
      (∀ (z : ct_complex) (color : ct_rgb),
        (ct_plot_add plot z color).isSome ∧ (ct_plot_point plot z color).isSome ∧
        (ct_plot_addx plot z color).isSome) :=
  ⟨by decide, by decide, by decide, by decide!, by decide!,
    ct_plot_init_in_bounds axes4 (ct_canvas_zero 4 4) (by decide) (by decide) (by decide)
      (by decide!) (by decide!)⟩

/-! ## Round trip of the point mapper -/

theorem trunc_add_half (x : Nat) : trunc ((x : ℚ) + 1 / 2) = (x : Int) := by
  have h0 : (0 : ℚ) ≤ (x : ℚ) := Nat.cast_nonneg x
  rw [trunc_of_nonneg (by linarith), Int.floor_eq_iff]
  constructor
  · push_cast; linarith
  · push_cast; linarith

/-- The value at the centre of the cell of column `x` and row `y`. -/
theorem cell_centre_maps_back (plane : ct_plane) (hxs : 0 < plane.xstep) (hys : 0 < plane.ystep)
    (x y : Nat) :
    pixel_x plane { re := plane.axes.xmin + ((x : ℚ) + 1 / 2) * plane.xstep,
                    im := plane.axes.ymax - ((y : ℚ) + 1 / 2) * plane.ystep } = (x : Int) ∧
    pixel_y plane { re := plane.axes.xmin + ((x : ℚ) + 1 / 2) * plane.xstep,
                    im := plane.axes.ymax - ((y : ℚ) + 1 / 2) * plane.ystep } = (y : Int) := by
  unfold pixel_x pixel_y
  constructor
  · have h : (plane.axes.xmin + ((x : ℚ) + 1 / 2) * plane.xstep - plane.axes.xmin) / plane.xstep
        = (x : ℚ) + 1 / 2 := by
      field_simp
      ring
    show trunc ((plane.axes.xmin + ((x : ℚ) + 1 / 2) * plane.xstep - plane.axes.xmin)
      / plane.xstep) = (x : Int)
    rw [h, trunc_add_half]
  · have h : (plane.axes.ymax - (plane.axes.ymax - ((y : ℚ) + 1 / 2) * plane.ystep)) / plane.ystep
        = (y : ℚ) + 1 / 2 := by
      field_simp
      ring
    show trunc ((plane.axes.ymax - (plane.axes.ymax - ((y : ℚ) + 1 / 2) * plane.ystep))
      / plane.ystep) = (y : Int)
    rw [h, trunc_add_half]

/-- C4: round trip of the point mapper.  In the plot that `ct_plot_init` builds
for a valid canvas of width and height at least 2 and axes with `xmin < xmax`,
`ymin < ymax`, for every pixel `(x, y)` with `x < W` and `y < H` the cell-centre
value `(xmin + (x + 1/2) * xstep, ymax - (y + 1/2) * ystep)` is mapped by the
truncating formulas of the mapper to exactly `(x, y)`, passes the bounds check
and gets the index `x + y * W`. -/
theorem ct_plot_point_round_trip (axes : ct_axes) (canvas : ct_canvas) (hv : canvas.valid)
    (hW : 2 ≤ canvas.width) (hH : 2 ≤ canvas.height)
    (hx : axes.xmin < axes.xmax) (hy : axes.ymin < axes.ymax) :
    ∃ plot, ct_plot_init axes canvas = some plot ∧
      ∀ x y : Nat, x < canvas.width → y < canvas.height →
        pixel_x plot.plane
          { re := plot.plane.axes.xmin + ((x : ℚ) + 1 / 2) * plot.plane.xstep,
            im := plot.plane.axes.ymax - ((y : ℚ) + 1 / 2) * plot.plane.ystep } = (x : Int) ∧
        pixel_y plot.plane
          { re := plot.plane.axes.xmin + ((x : ℚ) + 1 / 2) * plot.plane.xstep,
            im := plot.plane.axes.ymax - ((y : ℚ) + 1 / 2) * plot.plane.ystep } = (y : Int) ∧
        in_bounds plot
          { re := plot.plane.axes.xmin + ((x : ℚ) + 1 / 2) * plot.plane.xstep,
            im := plot.plane.axes.ymax - ((y : ℚ) + 1 / 2) * plot.plane.ystep } ∧
        pixel_index plot
          { re := plot.plane.axes.xmin + ((x : ℚ) + 1 / 2) * plot.plane.xstep,
            im := plot.plane.axes.ymax - ((y : ℚ) + 1 / 2) * plot.plane.ystep }
          = x + y * canvas.width := by
  obtain ⟨plane, _, hinit, hxs, hys, _, _⟩ := ct_plot_init_spec axes canvas hv hW hH hx hy
  refine ⟨{ plane := plane, canvas := canvas }, hinit, ?_⟩
  intro x y hxW hyH
  obtain ⟨h1, h2⟩ := cell_centre_maps_back plane hxs hys x y
  have hok : pixel_ok plane canvas.width canvas.height
      { re := plane.axes.xmin + ((x : ℚ) + 1 / 2) * plane.xstep,
        im := plane.axes.ymax - ((y : ℚ) + 1 / 2) * plane.ystep } := by
    unfold pixel_ok
    rw [h1, h2]
    omega
  refine ⟨h1, h2, pixel_ok_in_bounds hv hok, ?_⟩
  have hidx := @pixel_index_eq { plane := plane, canvas := canvas } _ hv hok
  rw [hidx]
  unfold cell_index
  rw [h1, h2]
  have : ((x : Int) + (y : Int) * (canvas.width : Int)) = ((x + y * canvas.width : Nat) : Int) := by
    push_cast; ring
  rw [this, Int.toNat_ofNat]

/-- C4 on the zeroed 4x4 canvas with the plane `[-1,1] x [-1,1]`. -/
theorem ct_plot_point_round_trip_witness :
    (ct_canvas_zero 4 4).valid ∧ 2 ≤ (ct_canvas_zero 4 4).width ∧
    2 ≤ (ct_canvas_zero 4 4).height ∧ axes4.xmin < axes4.xmax ∧ axes4.ymin < axes4.ymax ∧
    ∃ plot, ct_plot_init axes4 (ct_canvas_zero 4 4) = some plot ∧
      ∀ x y : Nat, x < (ct_canvas_zero 4 4).width → y < (ct_canvas_zero 4 4).height →
        pixel_x plot.plane
          { re := plot.plane.axes.xmin + ((x : ℚ) + 1 / 2) * plot.plane.xstep,
            im := plot.plane.axes.ymax - ((y : ℚ) + 1 / 2) * plot.plane.ystep } = (x : Int) ∧
        pixel_y plot.plane
          { re := plot.plane.axes.xmin + ((x : ℚ) + 1 / 2) * plot.plane.xstep,
            im := plot.plane.axes.ymax - ((y : ℚ) + 1 / 2) * plot.plane.ystep } = (y : Int) ∧
        in_bounds plot
          { re := plot.plane.axes.xmin + ((x : ℚ) + 1 / 2) * plot.plane.xstep,
            im := plot.plane.axes.ymax - ((y : ℚ) + 1 / 2) * plot.plane.ystep } ∧
        pixel_index plot
          { re := plot.plane.axes.xmin + ((x : ℚ) + 1 / 2) * plot.plane.xstep,
            im := plot.plane.axes.ymax - ((y : ℚ) + 1 / 2) * plot.plane.ystep }
          = x + y * (ct_canvas_zero 4 4).width :=
  ⟨by decide, by decide, by decide, by decide!, by decide!,
    ct_plot_point_round_trip axes4 (ct_canvas_zero 4 4) (by decide) (by decide) (by decide)
      (by decide!) (by decide!)⟩

/-! ## Direct write -/

theorem ct_plot_point_spec (self : ct_plot) (z : ct_complex) (color : ct_rgb)
    (hv : self.canvas.valid) :
    (pixel_ok self.plane self.canvas.width self.canvas.height z ∧
      cell_index self.plane self.canvas.width z < self.canvas.buf.length ∧
      ct_plot_point self z color = some (true, { self with canvas := { self.canvas with
        buf := self.canvas.buf.set (cell_index self.plane self.canvas.width z) color } })) ∨
    (¬ pixel_ok self.plane self.canvas.width self.canvas.height z ∧
      ct_plot_point self z color = some (false, self)) := by
  by_cases hb : in_bounds self z
  · left
    have hok := in_bounds_pixel_ok hb
    obtain ⟨exist, _, h2⟩ := plot_cell_hit (fun _ => color) false hv hb
    exact ⟨hok, by rw [hv.2]; exact cell_index_lt hok, by rw [ct_plot_point_eq, h2]⟩
  · right
    exact ⟨fun h => hb ((in_bounds_iff_pixel_ok hv z).2 h),
      by rw [ct_plot_point_eq]; exact plot_cell_miss _ _ hb⟩

/-- C5: on a valid canvas, `ct_plot_point` returns
true exactly when the mapped pixel is in bounds (`0 ≤ x < W` and `0 ≤ y < H`);
when it returns true the display bytes of the targeted cell (index `x + y * W`)
are those of `rgb` afterwards, and when it returns false the plot, buffer
included, is unchanged. -/
theorem ct_plot_point_writes (self : ct_plot) (z : ct_complex) (rgb : ct_rgb)
    (hv : self.canvas.valid) :
    ∃ ok out, ct_plot_point self z rgb = some (ok, out) ∧
      (ok = true ↔ pixel_ok self.plane self.canvas.width self.canvas.height z) ∧
      (ok = true → ∃ c, out.canvas.buf[cell_index self.plane self.canvas.width z]? = some c ∧
        c.r = rgb.r ∧ c.g = rgb.g ∧ c.b = rgb.b) ∧
      (ok = false → out = self) := by
  rcases ct_plot_point_spec self z rgb hv with ⟨hok, hlen, h⟩ | ⟨hno, h⟩
  · refine ⟨true, _, h, ⟨fun _ => hok, fun _ => rfl⟩, ?_, ?_⟩
    · intro _
      exact ⟨rgb, by simp [List.getElem?_set, hlen], rfl, rfl, rfl⟩
    · intro hf
      cases hf
  · refine ⟨false, self, h, ⟨fun hf => Bool.noConfusion hf, fun hok => absurd hok hno⟩, ?_, fun _ => rfl⟩
    intro hf
    cases hf

/-- C5 on the 4x4 scenario: a white point written at the origin. -/
theorem ct_plot_point_writes_witness :
    plot4_hit.canvas.valid ∧
    ∃ ok out, ct_plot_point plot4_hit z_origin white = some (ok, out) ∧
      (ok = true ↔ pixel_ok plot4_hit.plane plot4_hit.canvas.width plot4_hit.canvas.height
        z_origin) ∧
      (ok = true → ∃ c,
        out.canvas.buf[cell_index plot4_hit.plane plot4_hit.canvas.width z_origin]? = some c ∧
        c.r = white.r ∧ c.g = white.g ∧ c.b = white.b) ∧
      (ok = false → out = plot4_hit) :=
  ⟨by decide, ct_plot_point_writes plot4_hit z_origin white (by decide)⟩

/-- C6 fails as stated: in the 4x4 scenario the cell of index 5 has hit count 1
and red sum 1; `ct_plot_point` at the origin with the colour `{ 255, 255, 255 }`
returns true and leaves that cell with hit count 0 and red sum 0, because the
source stores the whole structure `*color`, accumulators included. -/
theorem ct_plot_point_frame_counterexample :
    plot4_hit.canvas.buf[5]? = some cell_hit ∧
    cell_hit.meta.alpha = 1 ∧ cell_hit.meta.red = 1 ∧
    ∃ out, ct_plot_point plot4_hit z_origin white = some (true, out) ∧
      out.canvas.buf[5]? = some white ∧ white.meta.alpha = 0 ∧ white.meta.red = 0 ∧
      out.canvas.buf[5]?.map (fun c => c.meta) ≠ plot4_hit.canvas.buf[5]?.map (fun c => c.meta) :=
  ⟨by decide, by decide!, by decide!,
    { plot4_hit with canvas := { plot4_hit.canvas with
        buf := plot4_hit.canvas.buf.set 5 white } },
    by decide!, by decide!, by decide!, by decide!, by decide!⟩

/-- C6, amended: on a valid canvas, `ct_plot_point`
changes nothing but the one targeted cell, which it replaces as a whole by the
colour structure passed (its display bytes and its accumulators); the plane, the
dimensions and every field of every other cell are the same after the call as
before it, and a call mapped out of bounds changes nothing. -/
theorem ct_plot_point_frame (self : ct_plot) (z : ct_complex) (color : ct_rgb)
    (hv : self.canvas.valid) :
    ∃ ok out, ct_plot_point self z color = some (ok, out) ∧
      out.plane = self.plane ∧ out.canvas.width = self.canvas.width ∧
      out.canvas.height = self.canvas.height ∧
      out.canvas.buf.length = self.canvas.buf.length ∧
      (∀ j, j ≠ cell_index self.plane self.canvas.width z →
        out.canvas.buf[j]? = self.canvas.buf[j]?) ∧
      (pixel_ok self.plane self.canvas.width self.canvas.height z →
        out.canvas.buf[cell_index self.plane self.canvas.width z]? = some color) ∧
      (¬ pixel_ok self.plane self.canvas.width self.canvas.height z → out = self) := by
  rcases ct_plot_point_spec self z color hv with ⟨hok, hlen, h⟩ | ⟨hno, h⟩
  · refine ⟨true, _, h, rfl, rfl, rfl, by simp, ?_, ?_, fun hno => absurd hok hno⟩
    · intro j hj
      simp [List.getElem?_set, Ne.symm hj]
    · intro _
      simp [List.getElem?_set, hlen]
  · exact ⟨false, self, h, rfl, rfl, rfl, rfl, fun _ _ => rfl, fun hok => absurd hok hno,
      fun _ => rfl⟩

/-- C6 amended, on the 4x4 scenario. -/
theorem ct_plot_point_frame_witness :
    plot4_hit.canvas.valid ∧
    ∃ ok out, ct_plot_point plot4_hit z_origin white = some (ok, out) ∧
      out.plane = plot4_hit.plane ∧ out.canvas.width = plot4_hit.canvas.width ∧
      out.canvas.height = plot4_hit.canvas.height ∧
      out.canvas.buf.length = plot4_hit.canvas.buf.length ∧
      (∀ j, j ≠ cell_index plot4_hit.plane plot4_hit.canvas.width z_origin →
        out.canvas.buf[j]? = plot4_hit.canvas.buf[j]?) ∧
      (pixel_ok plot4_hit.plane plot4_hit.canvas.width plot4_hit.canvas.height z_origin →
        out.canvas.buf[cell_index plot4_hit.plane plot4_hit.canvas.width z_origin]?
          = some white) ∧
      (¬ pixel_ok plot4_hit.plane plot4_hit.canvas.width plot4_hit.canvas.height z_origin →
        out = plot4_hit) :=
  ⟨by decide, ct_plot_point_frame plot4_hit z_origin white (by decide)⟩

/-! ## Saturating add -/

theorem ct_plot_addx_spec (self : ct_plot) (z : ct_complex) (color : ct_rgb)
    (hv : self.canvas.valid)
    (hz : pixel_ok self.plane self.canvas.width self.canvas.height z) :
    ∃ exist, self.canvas.buf[cell_index self.plane self.canvas.width z]? = some exist ∧
      ct_plot_addx self z color = some (true, { self with canvas := { self.canvas with
        buf := self.canvas.buf.set (cell_index self.plane self.canvas.width z)
          (addx_rgb exist) } }) := by
  rw [ct_plot_addx_eq]
  exact plot_cell_hit addx_rgb true hv ((in_bounds_iff_pixel_ok hv z).2 hz)

theorem addx_rgb_meta (c : ct_rgb) : (addx_rgb c).meta = c.meta := by
  unfold addx_rgb
  simp only
  split_ifs <;> rfl

theorem addx_rgb_cases (c : ct_rgb) :
    (c.r + 3 < 255 → (addx_rgb c).r = c.r + 3 ∧ (addx_rgb c).g = c.g ∧ (addx_rgb c).b = c.b) ∧
    (255 ≤ c.r + 3 → (addx_rgb c).r = 255 ∧
      (c.g + 3 < 255 → (addx_rgb c).g = c.g + 3 ∧ (addx_rgb c).b = c.b) ∧
      (255 ≤ c.g + 3 → (addx_rgb c).g = 255 ∧
        (c.b + 3 < 255 → (addx_rgb c).b = c.b + 3) ∧
        (255 ≤ c.b + 3 → (addx_rgb c).b = 255))) := by
  unfold addx_rgb
  simp only
  split_ifs <;> refine ⟨fun _ => ⟨?_, ?_, ?_⟩, fun _ => ⟨?_, fun _ => ⟨?_, ?_⟩, fun _ =>
    ⟨?_, fun _ => ?_, fun _ => ?_⟩⟩⟩ <;> simp only <;> omega

/-- C7 fails as stated: with the targeted cell at (252, 0, 0), `r + 3 = 255`
does not exceed 255, yet `ct_plot_addx` passes the increment on to green: the
cell becomes (255, 3, 0), not (255, 0, 0). -/
theorem ct_plot_addx_cascade_counterexample :
    plot4_r252.canvas.buf[5]? = some (CT_RGB 252 0 0) ∧ 252 + 3 ≤ 255 ∧
    ∃ out, ct_plot_addx plot4_r252 z_origin white = some (true, out) ∧
      out.canvas.buf[5]? = some (CT_RGB 255 3 0) ∧
      CT_RGB 255 3 0 ≠ CT_RGB (252 + 3) 0 0 :=
  ⟨by decide, by decide,
    { plot4_r252 with canvas := { plot4_r252.canvas with
        buf := plot4_r252.canvas.buf.set 5 (CT_RGB 255 3 0) } },
    by decide!, by decide!, by decide!⟩

/-- C7, amended: on a valid canvas and for `z`
in bounds, `ct_plot_addx` returns true and stores in the targeted cell the
bytes obtained as follows, the accumulators being kept: red is clamped to 255
and the increment 3 passed on to green exactly when `r + 3` would reach or
exceed 255 (`r ≥ 252`), and likewise from green to blue when `g + 3` would reach
or exceed 255; in particular whenever `r + 3 < 255` the result is
`(r + 3, g, b)` with green and blue unchanged. -/
theorem ct_plot_addx_cascade (self : ct_plot) (z : ct_complex) (color : ct_rgb)
    (hv : self.canvas.valid)
    (hz : pixel_ok self.plane self.canvas.width self.canvas.height z) :
    ∃ c out c1, self.canvas.buf[cell_index self.plane self.canvas.width z]? = some c ∧
      ct_plot_addx self z color = some (true, out) ∧
      out.canvas.buf[cell_index self.plane self.canvas.width z]? = some c1 ∧
      c1.meta = c.meta ∧
      (c.r + 3 < 255 → c1.r = c.r + 3 ∧ c1.g = c.g ∧ c1.b = c.b) ∧
      (255 ≤ c.r + 3 → c1.r = 255 ∧
        (c.g + 3 < 255 → c1.g = c.g + 3 ∧ c1.b = c.b) ∧
        (255 ≤ c.g + 3 → c1.g = 255 ∧
          (c.b + 3 < 255 → c1.b = c.b + 3) ∧
          (255 ≤ c.b + 3 → c1.b = 255))) := by
  obtain ⟨c, hc, hcall⟩ := ct_plot_addx_spec self z color hv hz
  have hlen : cell_index self.plane self.canvas.width z < self.canvas.buf.length := by
    rw [hv.2]; exact cell_index_lt hz
  refine ⟨c, _, addx_rgb c, hc, hcall, by simp [List.getElem?_set, hlen], addx_rgb_meta c, ?_⟩
  exact addx_rgb_cases c

/-- C7 amended, on the 4x4 plot whose cell of index 5 holds (252, 0, 0). -/
theorem ct_plot_addx_cascade_witness :
    plot4_r252.canvas.valid ∧
    pixel_ok plot4_r252.plane plot4_r252.canvas.width plot4_r252.canvas.height z_origin ∧
    ∃ c out c1,
      plot4_r252.canvas.buf[cell_index plot4_r252.plane plot4_r252.canvas.width z_origin]?
        = some c ∧
      ct_plot_addx plot4_r252 z_origin white = some (true, out) ∧
      out.canvas.buf[cell_index plot4_r252.plane plot4_r252.canvas.width z_origin]?
        = some c1 ∧
      c1.meta = c.meta ∧
      (c.r + 3 < 255 → c1.r = c.r + 3 ∧ c1.g = c.g ∧ c1.b = c.b) ∧
      (255 ≤ c.r + 3 → c1.r = 255 ∧
        (c.g + 3 < 255 → c1.g = c.g + 3 ∧ c1.b = c.b) ∧
        (255 ≤ c.g + 3 → c1.g = 255 ∧
          (c.b + 3 < 255 → c1.b = c.b + 3) ∧
          (255 ≤ c.b + 3 → c1.b = 255))) :=
  ⟨by decide, by decide!,
    ct_plot_addx_cascade plot4_r252 z_origin white (by decide) (by decide!)⟩

/-! ## Repeated saturating add -/

theorem addx_rgb_step (c : ct_rgb) (hr : c.r ≤ 255) (hg : c.g ≤ 255) (hb : c.b ≤ 255) :
    c.r ≤ (addx_rgb c).r ∧ (addx_rgb c).r ≤ 255 ∧
    c.g ≤ (addx_rgb c).g ∧ (addx_rgb c).g ≤ 255 ∧
    c.b ≤ (addx_rgb c).b ∧ (addx_rgb c).b ≤ 255 ∧
    ((addx_rgb c).g ≠ c.g → (addx_rgb c).r = 255) ∧
    ((addx_rgb c).b ≠ c.b → (addx_rgb c).g = 255) := by
  obtain ⟨h1, h2⟩ := addx_rgb_cases c
  by_cases hr3 : c.r + 3 < 255
  · obtain ⟨e1, e2, e3⟩ := h1 hr3
    rw [e1, e2, e3]
    exact ⟨by omega, by omega, le_refl _, hg, le_refl _, hb, fun h => absurd rfl h,
      fun h => absurd rfl h⟩
  · obtain ⟨e1, h3, h4⟩ := h2 (by omega)
    by_cases hg3 : c.g + 3 < 255
    · obtain ⟨e2, e3⟩ := h3 hg3
      rw [e1, e2, e3]
      exact ⟨hr, le_refl _, by omega, by omega, le_refl _, hb, fun _ => rfl,
        fun h => absurd rfl h⟩
    · obtain ⟨e2, h5, h6⟩ := h4 (by omega)
      by_cases hb3 : c.b + 3 < 255
      · rw [e1, e2, h5 hb3]
        exact ⟨hr, le_refl _, hg, le_refl _, by omega, by omega, fun _ => rfl, fun _ => rfl⟩
      · rw [e1, e2, h6 (by omega)]
        exact ⟨hr, le_refl _, hg, le_refl _, hb, le_refl _, fun _ => rfl, fun _ => rfl⟩

theorem addx_rgb_left (c : ct_rgb) (hr : c.r ≤ 255) (hg : c.g ≤ 255) (hb : c.b ≤ 255) :
    (((addx_rgb c).r = 255 ∧ (addx_rgb c).g = 255 ∧ (addx_rgb c).b = 255) ↔
      addx_calls_left c = 1) ∧
    (1 < addx_calls_left c → addx_calls_left (addx_rgb c) + 1 = addx_calls_left c) ∧
    (addx_calls_left c = 1 → addx_calls_left (addx_rgb c) = 1) := by
  obtain ⟨h1, h2⟩ := addx_rgb_cases c
  unfold addx_calls_left
  by_cases hr3 : c.r + 3 < 255
  · obtain ⟨e1, e2, e3⟩ := h1 hr3
    rw [e1, e2, e3]
    refine ⟨⟨fun h => ?_, fun h => ?_⟩, fun _ => ?_, fun h => ?_⟩ <;> omega
  · obtain ⟨e1, h3, h4⟩ := h2 (by omega)
    by_cases hg3 : c.g + 3 < 255
    · obtain ⟨e2, e3⟩ := h3 hg3
      rw [e1, e2, e3]
      refine ⟨⟨fun h => ?_, fun h => ?_⟩, fun _ => ?_, fun h => ?_⟩ <;> omega
    · obtain ⟨e2, h5, h6⟩ := h4 (by omega)
      by_cases hb3 : c.b + 3 < 255
      · rw [e1, e2, h5 hb3]
        refine ⟨⟨fun h => ?_, fun h => ?_⟩, fun _ => ?_, fun h => ?_⟩ <;> omega
      · rw [e1, e2, h6 (by omega)]
        refine ⟨⟨fun h => ?_, fun h => ?_⟩, fun _ => ?_, fun h => ?_⟩ <;> omega

theorem addx_rgb_iterate (c : ct_rgb) (hr : c.r ≤ 255) (hg : c.g ≤ 255) (hb : c.b ≤ 255) :
    ∀ n, (addx_rgb^[n] c).r ≤ 255 ∧ (addx_rgb^[n] c).g ≤ 255 ∧ (addx_rgb^[n] c).b ≤ 255 ∧
      addx_calls_left (addx_rgb^[n] c) = max 1 (addx_calls_left c - n) := by
  intro n
  induction n with
  | zero =>
    refine ⟨hr, hg, hb, ?_⟩
    simp only [Function.iterate_zero, id_eq]
    unfold addx_calls_left
    omega
  | succ n ih =>
    obtain ⟨ir, ig, ib, il⟩ := ih
    rw [Function.iterate_succ_apply']
    have hs := addx_rgb_step _ ir ig ib
    have hl := addx_rgb_left _ ir ig ib
    refine ⟨hs.2.1, hs.2.2.2.1, hs.2.2.2.2.2.1, ?_⟩
    by_cases h1 : 1 < addx_calls_left (addx_rgb^[n] c)
    · have := hl.2.1 h1
      omega
    · have h2 : addx_calls_left (addx_rgb^[n] c) = 1 := by
        have : 1 ≤ addx_calls_left (addx_rgb^[n] c) := by unfold addx_calls_left; omega
        omega
      have := hl.2.2 h2
      omega

theorem addx_rgb_iterate_top (c : ct_rgb) (hr : c.r ≤ 255) (hg : c.g ≤ 255) (hb : c.b ≤ 255)
    (n : Nat) :
    ((addx_rgb^[n + 1] c).r = 255 ∧ (addx_rgb^[n + 1] c).g = 255 ∧ (addx_rgb^[n + 1] c).b = 255)
      ↔ addx_calls_left c ≤ n + 1 := by
  obtain ⟨ir, ig, ib, il⟩ := addx_rgb_iterate c hr hg hb n
  rw [Function.iterate_succ_apply', (addx_rgb_left _ ir ig ib).1, il]
  have : 1 ≤ addx_calls_left c := by unfold addx_calls_left; omega
  omega

theorem ct_plot_addx_iter_spec (z : ct_complex) (color : ct_rgb) (n : Nat) :
    ∀ (self : ct_plot) (c0 : ct_rgb), self.canvas.valid →
      pixel_ok self.plane self.canvas.width self.canvas.height z →
      self.canvas.buf[cell_index self.plane self.canvas.width z]? = some c0 →
      ∃ out, ct_plot_addx_iter z color n self = some out ∧ out.plane = self.plane ∧
        out.canvas.width = self.canvas.width ∧ out.canvas.height = self.canvas.height ∧
        out.canvas.valid ∧
        out.canvas.buf[cell_index self.plane self.canvas.width z]? = some (addx_rgb^[n] c0) := by
  induction n with
  | zero =>
    intro self c0 hv _ hc0
    exact ⟨self, rfl, rfl, rfl, rfl, hv, hc0⟩
  | succ n ih =>
    intro self c0 hv hz hc0
    obtain ⟨c, hc, hcall⟩ := ct_plot_addx_spec self z color hv hz
    have hcc : c = c0 := by rw [hc] at hc0; exact Option.some.inj hc0
    subst hcc
    have hlen : cell_index self.plane self.canvas.width z < self.canvas.buf.length := by
      rw [hv.2]; exact cell_index_lt hz
    have hframe := plot_cell_valid hv (by rw [← ct_plot_addx_eq]; exact hcall)
    obtain ⟨out, ho, hp, hw, hh, hvo, hcell⟩ :=
      ih { self with canvas := { self.canvas with
            buf := self.canvas.buf.set (cell_index self.plane self.canvas.width z)
              (addx_rgb c) } } (addx_rgb c) hframe.2.2.2 hz
        (by simp [List.getElem?_set, hlen])
    refine ⟨out, ?_, hp, hw, hh, hvo, ?_⟩
    · show (match ct_plot_addx self z color with
        | none => none
        | some (_, self1) => ct_plot_addx_iter z color n self1) = some out
      rw [hcall]
      exact ho
    · rw [Function.iterate_succ_apply]
      exact hcell

/-- C8: repeated `ct_plot_addx` at one in-bounds `z` of a valid canvas whose
targeted cell starts with bytes `r, g, b ≤ 255`.
For every `n` the first `n` calls succeed and leave the cell at some `c`, and
the next call returns true and leaves it at `c1`, where no channel decreases and
each stays at most 255, green changes only if the call leaves red at 255 and
blue only if it leaves green at 255; after 253 calls or more the cell is
(255, 255, 255), which the operation leaves fixed; and from (0, 0, 0) the cell
is (255, 255, 255) after `n` calls exactly when `n ≥ 253`. -/
theorem ct_plot_addx_saturates (self : ct_plot) (z : ct_complex) (color : ct_rgb) (c0 : ct_rgb)
    (hv : self.canvas.valid)
    (hz : pixel_ok self.plane self.canvas.width self.canvas.height z)
    (hc0 : self.canvas.buf[cell_index self.plane self.canvas.width z]? = some c0)
    (hr : c0.r ≤ 255) (hg : c0.g ≤ 255) (hb : c0.b ≤ 255) (n : Nat) :
    ∃ out c out1 c1, ct_plot_addx_iter z color n self = some out ∧
      out.canvas.buf[cell_index self.plane self.canvas.width z]? = some c ∧
      ct_plot_addx out z color = some (true, out1) ∧
      out1.canvas.buf[cell_index self.plane self.canvas.width z]? = some c1 ∧
      c.r ≤ c1.r ∧ c1.r ≤ 255 ∧ c.g ≤ c1.g ∧ c1.g ≤ 255 ∧ c.b ≤ c1.b ∧ c1.b ≤ 255 ∧
      (c1.g ≠ c.g → c1.r = 255) ∧ (c1.b ≠ c.b → c1.g = 255) ∧
      (253 ≤ n → c.r = 255 ∧ c.g = 255 ∧ c.b = 255) ∧
      (c.r = 255 ∧ c.g = 255 ∧ c.b = 255 → c1 = c) ∧
      (c0.r = 0 ∧ c0.g = 0 ∧ c0.b = 0 → ((c.r = 255 ∧ c.g = 255 ∧ c.b = 255) ↔ 253 ≤ n)) := by
  obtain ⟨out, ho, hp, hw, hh, hvo, hcell⟩ :=
    ct_plot_addx_iter_spec z color n self c0 hv hz hc0
  have hz1 : pixel_ok out.plane out.canvas.width out.canvas.height z := by
    rw [hp, hw, hh]; exact hz
  obtain ⟨c, hc, hcall⟩ := ct_plot_addx_spec out z color hvo hz1
  rw [hp, hw] at hc hcall
  have hcc : c = addx_rgb^[n] c0 := by rw [hc] at hcell; exact Option.some.inj hcell
  have hlen : cell_index self.plane self.canvas.width z < out.canvas.buf.length := by
    rw [hvo.2, hw, hh]; exact cell_index_lt hz
  obtain ⟨ir, ig, ib, il⟩ := addx_rgb_iterate c0 hr hg hb n
  rw [← hcc] at ir ig ib il
  have hs := addx_rgb_step c ir ig ib
  have hleft : addx_calls_left c0 ≤ 253 := by unfold addx_calls_left; omega
  have htop : ∀ m, 0 < m → ((addx_rgb^[m] c0).r = 255 ∧ (addx_rgb^[m] c0).g = 255 ∧
      (addx_rgb^[m] c0).b = 255 ↔ addx_calls_left c0 ≤ m) := by
    intro m hm
    obtain ⟨k, rfl⟩ : ∃ k, m = k + 1 := ⟨m - 1, by omega⟩
    exact addx_rgb_iterate_top c0 hr hg hb k
  refine ⟨out, c, _, addx_rgb c, ho, hc, hcall, by simp [List.getElem?_set, hlen],
    hs.1, hs.2.1, hs.2.2.1, hs.2.2.2.1, hs.2.2.2.2.1, hs.2.2.2.2.2.1, hs.2.2.2.2.2.2.1,
    hs.2.2.2.2.2.2.2, ?_, ?_, ?_⟩
  · intro hn
    rw [hcc]
    exact (htop n (by omega)).2 (by omega)
  · intro ⟨e1, e2, e3⟩
    obtain ⟨_, h2⟩ := addx_rgb_cases c
    obtain ⟨f1, _, h4⟩ := h2 (by omega)
    obtain ⟨f2, _, h6⟩ := h4 (by omega)
    have f3 := h6 (by omega)
    have hm := addx_rgb_meta c
    cases hx : addx_rgb c with
    | mk r1 g1 b1 m1 =>
      cases c with
      | mk r g b m =>
        rw [hx] at f1 f2 f3 hm
        simp only at e1 e2 e3 f1 f2 f3 hm
        subst e1 e2 e3 f1 f2 f3 hm
        rfl
  · intro ⟨z1, z2, z3⟩
    have h253 : addx_calls_left c0 = 253 := by unfold addx_calls_left; rw [z1, z2, z3]
    rw [hcc]
    rcases Nat.eq_zero_or_pos n with h0 | hpos
    · subst h0
      simp only [Function.iterate_zero, id_eq]
      constructor
      · intro ⟨e1, _, _⟩; omega
      · intro h; omega
    · rw [htop n hpos, h253]

/-- C8 on the zeroed 4x4 canvas at the origin: the 252nd call leaves the cell of
index 5 at (255, 255, 252) and the 253rd at (255, 255, 255). -/
theorem ct_plot_addx_saturates_witness :
    (ct_plot_addx_iter z_origin white 252 plot4).map (fun out => out.canvas.buf[5]?)
      = some (some (CT_RGB 255 255 252)) ∧
    (ct_plot_addx_iter z_origin white 253 plot4).map (fun out => out.canvas.buf[5]?)
      = some (some (CT_RGB 255 255 255)) ∧
    plot4.canvas.valid ∧
    pixel_ok plot4.plane plot4.canvas.width plot4.canvas.height z_origin ∧
    plot4.canvas.buf[cell_index plot4.plane plot4.canvas.width z_origin]? = some (CT_RGB 0 0 0) ∧
    (CT_RGB 0 0 0).r ≤ 255 ∧ (CT_RGB 0 0 0).g ≤ 255 ∧ (CT_RGB 0 0 0).b ≤ 255 ∧
    ∃ out c out1 c1, ct_plot_addx_iter z_origin white 253 plot4 = some out ∧
      out.canvas.buf[cell_index plot4.plane plot4.canvas.width z_origin]? = some c ∧
      ct_plot_addx out z_origin white = some (true, out1) ∧
      out1.canvas.buf[cell_index plot4.plane plot4.canvas.width z_origin]? = some c1 ∧
      c.r ≤ c1.r ∧ c1.r ≤ 255 ∧ c.g ≤ c1.g ∧ c1.g ≤ 255 ∧ c.b ≤ c1.b ∧ c1.b ≤ 255 ∧
      (c1.g ≠ c.g → c1.r = 255) ∧ (c1.b ≠ c.b → c1.g = 255) ∧
      (253 ≤ 253 → c.r = 255 ∧ c.g = 255 ∧ c.b = 255) ∧
      (c.r = 255 ∧ c.g = 255 ∧ c.b = 255 → c1 = c) ∧
      ((CT_RGB 0 0 0).r = 0 ∧ (CT_RGB 0 0 0).g = 0 ∧ (CT_RGB 0 0 0).b = 0 →
        ((c.r = 255 ∧ c.g = 255 ∧ c.b = 255) ↔ 253 ≤ 253)) :=
  ⟨by decide!, by decide!, by decide, by decide!, by decide!, by decide, by decide, by decide,
    ct_plot_addx_saturates plot4 z_origin white (CT_RGB 0 0 0) (by decide) (by decide!)
      (by decide!) (by decide) (by decide) (by decide) 253⟩

/-! ## Density normaliser -/

theorem log10_chord_is_log10 : is_log10 log10_chord := by
  refine ⟨by decide!, by decide!, by decide!, ?_, ?_⟩
  · intro h hh
    unfold log10_chord
    split
    · have : h = 1 := le_antisymm (by assumption) hh
      subst this
      norm_num
    · exact div_nonneg (by linarith) (by norm_num)
  · intro h _ h1
    unfold log10_chord
    rw [if_pos h1.le]
    have : (h - 1) * 10 / 9 = (h - 1) * (10 / 9) := by ring
    rw [this]
    exact mul_neg_of_neg_of_pos (by linarith) (by norm_num)

theorem post_processing_buf (log10 : ℚ → ℚ) (self : ct_canvas) (hv : self.valid) :
    (ct_canvas_log_density_post_processing log10 self).buf
      = self.buf.map (log_density_cell log10) := by
  unfold ct_canvas_log_density_post_processing
  have h1 : (self.width * self.height) % ULONG_SIZE = self.buf.length := by
    rw [Nat.mod_eq_of_lt (valid_lt_ulong hv), hv.2]
  simp only [h1, List.take_length, List.drop_length, List.append_nil]

theorem post_processing_cell (log10 : ℚ → ℚ) (self : ct_canvas) (hv : self.valid)
    (i : Nat) (c : ct_rgb) (hc : self.buf[i]? = some c) :
    (ct_canvas_log_density_post_processing log10 self).buf[i]?
      = some (log_density_cell log10 c) := by
  rw [post_processing_buf log10 self hv, List.getElem?_map, hc]
  rfl

theorem to_uchar_unit {v : ℚ} (h0 : 0 ≤ v) (h1 : v ≤ 1) :
    ((to_uchar (v * 255) : Nat) : Int) = ⌊255 * v⌋ := by
  have hv0 : 0 ≤ v * 255 := by linarith
  have hr := @trunc_range _ 255 hv0 (by push_cast; linarith)
  unfold to_uchar
  rw [Int.emod_eq_of_lt hr.1 (by omega), Int.toNat_of_nonneg hr.1, trunc_of_nonneg hv0,
    mul_comm]

theorem upper_clamp_eq {q : ℚ} (h0 : 0 ≤ q) :
    0 ≤ (if q > 1 then 1 else q) ∧ (if q > 1 then 1 else q) ≤ 1 ∧
    (if q > 1 then 1 else q) = clamp01 q := by
  unfold clamp01
  rw [if_neg (not_lt.2 h0)]
  split
  · exact ⟨by norm_num, le_refl _, rfl⟩
  · exact ⟨h0, by linarith, rfl⟩

theorem log_density_cell_byte (log10 : ℚ → ℚ) (sum hit : ℚ) (hs : 0 ≤ sum) (hh : 1 ≤ hit)
    (hl : 0 ≤ log10 hit) :
    ((to_uchar ((if sum * (log10 hit / hit) > 1 then 1 else sum * (log10 hit / hit)) * 255)
      : Nat) : Int) = spec_density_byte log10 sum hit := by
  have hq : 0 ≤ sum * (log10 hit / hit) := mul_nonneg hs (div_nonneg hl (by linarith))
  obtain ⟨h0, h1, he⟩ := upper_clamp_eq hq
  rw [to_uchar_unit h0 h1, he]
  unfold spec_density_byte
  rw [mul_div_assoc]

/-- C9 fails as stated: the cell with red sum 1 and hit count 1/10 has
non-negative accumulators and a positive hit count; with `log10 (1/10) = -1` the
scaled red value is `-10`, which the source does not clamp from below, so the
byte stored is the low byte of `-2550`, that is 10, where the two-sided clamp of
the specification gives 0. -/
theorem log_density_clamp_counterexample :
    log10_chord (1 / 10) = -1 ∧
    canvas4_tenth.valid ∧ canvas4_tenth.buf[5]? = some cell_tenth ∧
    0 ≤ cell_tenth.meta.red ∧ 0 ≤ cell_tenth.meta.green ∧ 0 ≤ cell_tenth.meta.blue ∧
    0 < cell_tenth.meta.alpha ∧
    ((ct_canvas_log_density_post_processing log10_chord canvas4_tenth).buf[5]?).map
      (fun c => c.r) = some 10 ∧
    spec_density_byte log10_chord cell_tenth.meta.red cell_tenth.meta.alpha = 0 :=
  ⟨by decide!, by decide, by decide!, by decide!, by decide!, by decide!, by decide!,
    by decide!, by decide!⟩

/-- C9, amended: for a `log10` that is non-negative from 1 on and every cell of
a valid canvas whose colour sums are non-negative and whose hit count is at
least 1, each display byte after `ct_canvas_log_density_post_processing` equals
`floor(255 * clamp(sum * log10(hitCount) / hitCount, 0, 1))` for the
corresponding colour sum (red sum to `r`, green sum to `g`, blue sum to `b`);
the source clamps the scaled value from above only, which is the two-sided
clamp there because the scaled value is not negative.  The accumulators are
kept. -/
theorem log_density_bytes (log10 : ℚ → ℚ) (hlog : ∀ h, 1 ≤ h → 0 ≤ log10 h)
    (self : ct_canvas) (hv : self.valid) (i : Nat) (c : ct_rgb) (hc : self.buf[i]? = some c)
    (hred : 0 ≤ c.meta.red) (hgreen : 0 ≤ c.meta.green) (hblue : 0 ≤ c.meta.blue)
    (hhit : 1 ≤ c.meta.alpha) :
    ∃ c1, (ct_canvas_log_density_post_processing log10 self).buf[i]? = some c1 ∧
      (c1.r : Int) = spec_density_byte log10 c.meta.red c.meta.alpha ∧
      (c1.g : Int) = spec_density_byte log10 c.meta.green c.meta.alpha ∧
      (c1.b : Int) = spec_density_byte log10 c.meta.blue c.meta.alpha ∧
      c1.meta = c.meta := by
  refine ⟨_, post_processing_cell log10 self hv i c hc, ?_⟩
  have hpos : c.meta.alpha > 0 := by linarith
  unfold log_density_cell
  simp only [if_pos hpos]
  exact ⟨log_density_cell_byte log10 _ _ hred hhit (hlog _ hhit),
    log_density_cell_byte log10 _ _ hgreen hhit (hlog _ hhit),
    log_density_cell_byte log10 _ _ hblue hhit (hlog _ hhit), trivial⟩

/-- C9 amended, on a cell with hit count 10 and colour sums (3, 20, 0): with
`log10 10 = 1` the bytes become (76, 255, 0). -/
theorem log_density_bytes_witness :
    (ct_canvas_log_density_post_processing log10_chord canvas4_ten).buf[5]?
      = some { cell_ten with r := 76, g := 255, b := 0 } ∧
    (∀ h, 1 ≤ h → 0 ≤ log10_chord h) ∧ canvas4_ten.valid ∧
    canvas4_ten.buf[5]? = some cell_ten ∧
    0 ≤ cell_ten.meta.red ∧ 0 ≤ cell_ten.meta.green ∧ 0 ≤ cell_ten.meta.blue ∧
    1 ≤ cell_ten.meta.alpha ∧
    ∃ c1, (ct_canvas_log_density_post_processing log10_chord canvas4_ten).buf[5]? = some c1 ∧
      (c1.r : Int) = spec_density_byte log10_chord cell_ten.meta.red cell_ten.meta.alpha ∧
      (c1.g : Int) = spec_density_byte log10_chord cell_ten.meta.green cell_ten.meta.alpha ∧
      (c1.b : Int) = spec_density_byte log10_chord cell_ten.meta.blue cell_ten.meta.alpha ∧
      c1.meta = cell_ten.meta :=
  ⟨by decide!, log10_chord_is_log10.2.2.2.1, by decide, by decide, by decide!, by decide!,
    by decide!, by decide!,
    log_density_bytes log10_chord log10_chord_is_log10.2.2.2.1 canvas4_ten (by decide) 5
      cell_ten (by decide) (by decide!) (by decide!) (by decide!) (by decide!)⟩

/-- C10: single-hit cells render black.  For a `log10` with `log10 1 = 0`, every
valid canvas and every cell of it with hit count 1, whatever its colour sums and
previous display bytes, `ct_canvas_log_density_post_processing` sets the display
bytes of the cell to (0, 0, 0) and keeps its accumulators. -/
theorem log_density_single_hit (log10 : ℚ → ℚ) (hlog : log10 1 = 0)
    (self : ct_canvas) (hv : self.valid) (i : Nat) (c : ct_rgb) (hc : self.buf[i]? = some c)
    (hhit : c.meta.alpha = 1) :
    ∃ c1, (ct_canvas_log_density_post_processing log10 self).buf[i]? = some c1 ∧
      c1.r = 0 ∧ c1.g = 0 ∧ c1.b = 0 ∧ c1.meta = c.meta := by
  refine ⟨_, post_processing_cell log10 self hv i c hc, ?_⟩
  have hz : to_uchar (0 * 255) = 0 := by decide!
  unfold log_density_cell
  simp only [hhit, hlog, zero_div, mul_zero, gt_iff_lt, zero_lt_one, if_true,
    if_neg (not_lt.2 (zero_le_one : (0 : ℚ) ≤ 1)), hz]
  exact ⟨trivial, trivial, trivial, trivial⟩

/-- C10 on the 4x4 scenario: the cell of index 5, with hit count 1 and red sum
1, gets the red byte 0. -/
theorem log_density_single_hit_witness :
    ((ct_canvas_log_density_post_processing log10_chord plot4_hit.canvas).buf[5]?).map
      (fun c => c.r) = some 0 ∧
    log10_chord 1 = 0 ∧ plot4_hit.canvas.valid ∧
    plot4_hit.canvas.buf[5]? = some cell_hit ∧ cell_hit.meta.alpha = 1 ∧
    ∃ c1, (ct_canvas_log_density_post_processing log10_chord plot4_hit.canvas).buf[5]?
        = some c1 ∧
      c1.r = 0 ∧ c1.g = 0 ∧ c1.b = 0 ∧ c1.meta = cell_hit.meta :=
  ⟨by decide!, by decide!, by decide, by decide, by decide!,
    log_density_single_hit log10_chord (by decide!) plot4_hit.canvas (by decide) 5 cell_hit
      (by decide) (by decide!)⟩

/-! ## Frame of the density normaliser -/

theorem log_density_cell_meta (log10 : ℚ → ℚ) (c : ct_rgb) :
    (log_density_cell log10 c).meta = c.meta := by
  unfold log_density_cell
  split <;> rfl

theorem log_density_cell_idle (log10 : ℚ → ℚ) (c : ct_rgb) (h : c.meta.alpha = 0) :
    log_density_cell log10 c = c := by
  unfold log_density_cell
  rw [if_neg (by rw [h]; exact lt_irrefl 0)]

theorem take_map_drop_getElem? (f : ct_rgb → ct_rgb) (l : List ct_rgb) (k i : Nat) (c : ct_rgb)
    (hc : l[i]? = some c) :
    ((l.take k).map f ++ l.drop k)[i]? = some (if i < k then f c else c) := by
  have hlen : i < l.length := by
    by_contra h
    rw [List.getElem?_eq_none (by omega)] at hc
    cases hc
  by_cases hik : i < k
  · rw [if_pos hik, List.getElem?_append_left (by simp; omega), List.getElem?_map,
      List.getElem?_take_of_lt hik, hc]
    rfl
  · rw [if_neg hik, List.getElem?_append_right (by simp; omega)]
    simp only [List.length_map, List.length_take, List.getElem?_drop]
    have hmin : min k l.length = k := by omega
    rw [hmin, show k + (i - k) = i by omega, hc]

/-- C11: for every `log10` and every buffer, `ct_canvas_log_density_post_processing`
keeps the accumulators of every cell, and leaves every cell with hit count 0
completely unchanged (display bytes and accumulators); so a zero-hit cell with
display bytes (0, 0, 0) keeps them. -/
theorem log_density_frame (log10 : ℚ → ℚ) (self : ct_canvas) (i : Nat) (c : ct_rgb)
    (hc : self.buf[i]? = some c) :
    ∃ c1, (ct_canvas_log_density_post_processing log10 self).buf[i]? = some c1 ∧
      c1.meta = c.meta ∧
      (c.meta.alpha = 0 → c1 = c) ∧
      (c.meta.alpha = 0 → c.r = 0 ∧ c.g = 0 ∧ c.b = 0 → c1.r = 0 ∧ c1.g = 0 ∧ c1.b = 0) := by
  unfold ct_canvas_log_density_post_processing
  refine ⟨_, take_map_drop_getElem? _ _ _ _ _ hc, ?_, ?_, ?_⟩
  · split
    · exact log_density_cell_meta log10 c
    · rfl
  · intro h0
    split
    · exact log_density_cell_idle log10 c h0
    · rfl
  · intro h0 hz
    split
    · rw [log_density_cell_idle log10 c h0]; exact hz
    · exact hz

/-- C11 on the 4x4 scenario: the zero-hit cell of index 0 is unchanged, and the
cell of index 5 keeps its accumulators. -/
theorem log_density_frame_witness :
    (ct_canvas_log_density_post_processing log10_chord plot4_hit.canvas).buf[0]?
      = some (CT_RGB 0 0 0) ∧
    plot4_hit.canvas.buf[0]? = some (CT_RGB 0 0 0) ∧
    ∃ c1, (ct_canvas_log_density_post_processing log10_chord plot4_hit.canvas).buf[0]?
        = some c1 ∧
      c1.meta = (CT_RGB 0 0 0).meta ∧
      ((CT_RGB 0 0 0).meta.alpha = 0 → c1 = CT_RGB 0 0 0) ∧
      ((CT_RGB 0 0 0).meta.alpha = 0 →
        (CT_RGB 0 0 0).r = 0 ∧ (CT_RGB 0 0 0).g = 0 ∧ (CT_RGB 0 0 0).b = 0 →
        c1.r = 0 ∧ c1.g = 0 ∧ c1.b = 0) :=
  ⟨by decide!, by decide,
    log_density_frame log10_chord plot4_hit.canvas 0 (CT_RGB 0 0 0) (by decide)⟩

/-! ## Preconditions and expansion of the viewport -/

theorem ct_plane_init_none_iff (axes : ct_axes) (w h : Nat) :
    ct_plane_init axes w h = none ↔ (w = 0 ∨ h = 0 ∨ axes.xmax - axes.xmin ≤ 0) := by
  unfold ct_plane_init
  simp only
  split
  · rename_i hc
    obtain ⟨h1, h2, h3⟩ := hc
    constructor
    · intro hn; cases hn
    · rintro (h0 | h0 | h0)
      · omega
      · omega
      · exact absurd h3 (not_lt.2 h0)
  · rename_i hc
    constructor
    · intro _
      by_contra hall
      push_neg at hall
      exact hc ⟨Nat.pos_of_ne_zero hall.1, Nat.pos_of_ne_zero hall.2.1, hall.2.2⟩
    · intro _; rfl

/-- C12, the code at a failing input: for the axes `[-1,1] x [0,0]`, whose y
span is zero, and the raster 3 x 3 the assertion of `ct_plane_init` passes and
the function returns a plane, because the assertion tests the width, the height
and the x span only. -/
theorem ct_plane_init_flat_axes_pass :
    axes_flat.ymax - axes_flat.ymin ≤ 0 ∧ axes_flat.ymax ≤ axes_flat.ymin ∧
    0 < 3 ∧ axes_flat.xmin < axes_flat.xmax ∧
    ct_plane_init axes_flat 3 3 ≠ none :=
  ⟨by decide!, by decide!, by decide, by decide!, by decide!⟩

theorem ct_plane_init_cases (axes : ct_axes) (w h : Nat) (hw : 0 < w) (hh : 0 < h)
    (hx : axes.xmin < axes.xmax) (hy : axes.ymin < axes.ymax) :
    ∃ p, ct_plane_init axes w h = some p ∧
      ((h : ℚ) / (w : ℚ) > (axes.ymax - axes.ymin) / (axes.xmax - axes.xmin) →
        p.axes.xmin = axes.xmin ∧ p.axes.xmax = axes.xmax ∧
        p.axes.ymin < axes.ymin ∧ axes.ymax < p.axes.ymax) ∧
      ((h : ℚ) / (w : ℚ) < (axes.ymax - axes.ymin) / (axes.xmax - axes.xmin) →
        p.axes.ymin = axes.ymin ∧ p.axes.ymax = axes.ymax ∧
        p.axes.xmin < axes.xmin ∧ axes.xmax < p.axes.xmax) ∧
      ((h : ℚ) / (w : ℚ) = (axes.ymax - axes.ymin) / (axes.xmax - axes.xmin) →
        p.axes = axes) := by
  have hwq : (0 : ℚ) < (w : ℚ) := by exact_mod_cast hw
  have hhq : (0 : ℚ) < (h : ℚ) := by exact_mod_cast hh
  have haw : 0 < axes.xmax - axes.xmin := by linarith
  have hah : 0 < axes.ymax - axes.ymin := by linarith
  have hd : 0 < (h : ℚ) / (w : ℚ) := div_pos hhq hwq
  have ha : 0 < (axes.ymax - axes.ymin) / (axes.xmax - axes.xmin) := div_pos hah haw
  have hcond : w > 0 ∧ h > 0 ∧ axes.xmax - axes.xmin > 0 := ⟨hw, hh, haw⟩
  unfold ct_plane_init
  simp only [if_pos hcond, fabs_of_pos hd, fabs_of_pos ha]
  refine ⟨_, rfl, ?_, ?_, ?_⟩
  · intro h1
    simp only [if_pos h1]
    have hq : 1 < (h : ℚ) / (w : ℚ) / ((axes.ymax - axes.ymin) / (axes.xmax - axes.xmin)) :=
      (one_lt_div ha).2 h1
    have hex : 0 < (axes.ymax - axes.ymin) *
        ((h : ℚ) / (w : ℚ) / ((axes.ymax - axes.ymin) / (axes.xmax - axes.xmin)) - 1) / 2 :=
      div_pos (mul_pos hah (by linarith)) (by norm_num)
    exact ⟨trivial, trivial, by linarith, by linarith⟩
  · intro h2
    have h1 : ¬ (h : ℚ) / (w : ℚ) > (axes.ymax - axes.ymin) / (axes.xmax - axes.xmin) :=
      not_lt.2 h2.le
    simp only [if_neg h1, if_pos h2]
    have hq : 1 < (axes.ymax - axes.ymin) / (axes.xmax - axes.xmin) / ((h : ℚ) / (w : ℚ)) :=
      (one_lt_div hd).2 h2
    have hex : 0 < (axes.xmax - axes.xmin) *
        ((axes.ymax - axes.ymin) / (axes.xmax - axes.xmin) / ((h : ℚ) / (w : ℚ)) - 1) / 2 :=
      div_pos (mul_pos haw (by linarith)) (by norm_num)
    exact ⟨trivial, trivial, by linarith, by linarith⟩
  · intro h3
    have h1 : ¬ (h : ℚ) / (w : ℚ) > (axes.ymax - axes.ymin) / (axes.xmax - axes.xmin) := by
      rw [h3]; exact lt_irrefl _
    have h2 : ¬ (h : ℚ) / (w : ℚ) < (axes.ymax - axes.ymin) / (axes.xmax - axes.xmin) := by
      rw [h3]; exact lt_irrefl _
    simp only [if_neg h1, if_neg h2]

/-- C13: the viewport is expanded, never cropped.  For `w > 0`, `h > 0` and axes
with positive x and y spans, `ct_plane_init` succeeds with `xmin' ≤ xmin`,
`xmax' ≥ xmax`, `ymin' ≤ ymin`, `ymax' ≥ ymax`; at most one axis is changed: the
y axis (strictly widened, x kept) when `h / w` exceeds the ratio height / width
of the axes, the x axis (strictly widened, y kept) when it is smaller, neither
when they are equal; and the steps `xstep = (xmax' - xmin') / w`,
`ystep = (ymax' - ymin') / h` are strictly positive. -/
theorem ct_plane_init_expands (axes : ct_axes) (w h : Nat) (hw : 0 < w) (hh : 0 < h)
    (hx : axes.xmin < axes.xmax) (hy : axes.ymin < axes.ymax) :
    ∃ p, ct_plane_init axes w h = some p ∧
      p.axes.xmin ≤ axes.xmin ∧ axes.xmax ≤ p.axes.xmax ∧
      p.axes.ymin ≤ axes.ymin ∧ axes.ymax ≤ p.axes.ymax ∧
      ((h : ℚ) / (w : ℚ) > (axes.ymax - axes.ymin) / (axes.xmax - axes.xmin) →
        p.axes.xmin = axes.xmin ∧ p.axes.xmax = axes.xmax ∧
        p.axes.ymin < axes.ymin ∧ axes.ymax < p.axes.ymax) ∧
      ((h : ℚ) / (w : ℚ) < (axes.ymax - axes.ymin) / (axes.xmax - axes.xmin) →
        p.axes.ymin = axes.ymin ∧ p.axes.ymax = axes.ymax ∧
        p.axes.xmin < axes.xmin ∧ axes.xmax < p.axes.xmax) ∧
      ((h : ℚ) / (w : ℚ) = (axes.ymax - axes.ymin) / (axes.xmax - axes.xmin) →
        p.axes = axes) ∧
      p.xstep = (p.axes.xmax - p.axes.xmin) / (w : ℚ) ∧
      p.ystep = (p.axes.ymax - p.axes.ymin) / (h : ℚ) ∧
      0 < p.xstep ∧ 0 < p.ystep := by
  obtain ⟨p, hp, hxs, hys, h1, h2, h3, h4, _, _, _⟩ := ct_plane_init_spec axes w h hw hh hx hy
  obtain ⟨q, hq, c1, c2, c3⟩ := ct_plane_init_cases axes w h hw hh hx hy
  have hpq : q = p := by rw [hp] at hq; exact (Option.some.inj hq).symm
  subst hpq
  have hwq : (0 : ℚ) < (w : ℚ) := by exact_mod_cast hw
  have hhq : (0 : ℚ) < (h : ℚ) := by exact_mod_cast hh
  refine ⟨q, hp, h1, h2, h3, h4, c1, c2, c3, hxs, hys, ?_, ?_⟩
  · rw [hxs]; exact div_pos (by linarith) hwq
  · rw [hys]; exact div_pos (by linarith) hhq

/-- C13 at the program's own input: the square `[-2,2] x [-2,2]` and the raster
1919 x 1079. -/
theorem ct_plane_init_expands_witness :
    0 < 1919 ∧ 0 < 1079 ∧ axes_main.xmin < axes_main.xmax ∧ axes_main.ymin < axes_main.ymax ∧
    ∃ p, ct_plane_init axes_main 1919 1079 = some p ∧
      p.axes.xmin ≤ axes_main.xmin ∧ axes_main.xmax ≤ p.axes.xmax ∧
      p.axes.ymin ≤ axes_main.ymin ∧ axes_main.ymax ≤ p.axes.ymax ∧
      (((1079 : Nat) : ℚ) / ((1919 : Nat) : ℚ)
          > (axes_main.ymax - axes_main.ymin) / (axes_main.xmax - axes_main.xmin) →
        p.axes.xmin = axes_main.xmin ∧ p.axes.xmax = axes_main.xmax ∧
        p.axes.ymin < axes_main.ymin ∧ axes_main.ymax < p.axes.ymax) ∧
      (((1079 : Nat) : ℚ) / ((1919 : Nat) : ℚ)
          < (axes_main.ymax - axes_main.ymin) / (axes_main.xmax - axes_main.xmin) →
        p.axes.ymin = axes_main.ymin ∧ p.axes.ymax = axes_main.ymax ∧
        p.axes.xmin < axes_main.xmin ∧ axes_main.xmax < p.axes.xmax) ∧
      (((1079 : Nat) : ℚ) / ((1919 : Nat) : ℚ)
          = (axes_main.ymax - axes_main.ymin) / (axes_main.xmax - axes_main.xmin) →
        p.axes = axes_main) ∧
      p.xstep = (p.axes.xmax - p.axes.xmin) / ((1919 : Nat) : ℚ) ∧
      p.ystep = (p.axes.ymax - p.axes.ymin) / ((1079 : Nat) : ℚ) ∧
      0 < p.xstep ∧ 0 < p.ystep :=
  ⟨by decide, by decide, by decide!, by decide!,
    ct_plane_init_expands axes_main 1919 1079 (by decide) (by decide) (by decide!) (by decide!)⟩

/-! ## Recorded calls -/

theorem ct_plot_add_seq_append (a b : List (ct_complex × ct_rgb)) :
    ∀ (self mid out : ct_plot) (oa ob : List Bool),
      ct_plot_add_seq self a = some (oa, mid) → ct_plot_add_seq mid b = some (ob, out) →
      ct_plot_add_seq self (a ++ b) = some (oa ++ ob, out) := by
  induction a with
  | nil =>
    intro self mid out oa ob ha hb
    simp only [ct_plot_add_seq, Option.some.injEq, Prod.mk.injEq] at ha
    obtain ⟨rfl, rfl⟩ := ha
    simpa using hb
  | cons call rest ih =>
    intro self mid out oa ob ha hb
    simp only [ct_plot_add_seq] at ha
    cases h1 : ct_plot_add self call.1 call.2 with
    | none => rw [h1] at ha; cases ha
    | some r1 =>
      obtain ⟨ok, self1⟩ := r1
      simp only [h1] at ha
      cases h2 : ct_plot_add_seq self1 rest with
      | none => simp only [h2] at ha; cases ha
      | some r2 =>
        obtain ⟨oks, self2⟩ := r2
        simp only [h2, Option.some.injEq, Prod.mk.injEq] at ha
        obtain ⟨rfl, rfl⟩ := ha
        have h3 := ih self1 self2 out oks ob h2 hb
        show ct_plot_add_seq self (call :: (rest ++ b)) = some (ok :: (oks ++ ob), out)
        simp only [ct_plot_add_seq, h1, h3]

theorem replays_nil (self : ct_logged) (hv : self.plot.canvas.valid) : replays self self [] :=
  ⟨by simp, rfl, rfl, rfl, rfl, hv⟩

theorem replays_append {a b c : ct_logged} {l1 l2 : List (ct_complex × ct_rgb)}
    (h1 : replays a b l1) (h2 : replays b c l2) : replays a c (l1 ++ l2) := by
  obtain ⟨a1, a2, a3, a4, a5, _⟩ := h1
  obtain ⟨b1, b2, b3, b4, b5, b6⟩ := h2
  refine ⟨by rw [b1, a1, List.append_assoc], ?_, b3.trans a3, b4.trans a4, b5.trans a5, b6⟩
  rw [ct_plot_add_seq_append l1 l2 _ _ _ _ _ a2 b2, List.length_append, List.replicate_add]

theorem ct_plot_add_logged_spec (self : ct_logged) (z : ct_complex) (color : ct_rgb)
    (hv : self.plot.canvas.valid) :
    ∃ out, ct_plot_add_logged self z color = some out ∧ replays self out [(z, color)] := by
  obtain ⟨p1, h1, hp, hw, hh, hv1, _⟩ := plot_cell_step self.plot z (add_rgb color) hv
  rw [← ct_plot_add_eq] at h1
  refine ⟨{ plot := p1, calls := self.calls ++ [(z, color)] }, ?_, rfl, ?_, hp, hw, hh, hv1⟩
  · unfold ct_plot_add_logged
    rw [h1]
  · simp only [ct_plot_add_seq, h1, List.length_singleton, List.replicate_succ,
      List.replicate_zero]

/-! ## Forward sub-orbit -/

theorem buddha_orbit_shift (c z : ct_complex) (k : Nat) :
    buddha_orbit c z (k + 1) = buddha_orbit c (cadd (cmul z z) c) k := by
  induction k with
  | zero => rfl
  | succ k ih =>
    show cadd (cmul (buddha_orbit c z (k + 1)) (buddha_orbit c z (k + 1))) c = _
    rw [ih]
    rfl

theorem buddha_calls_succ (c z : ct_complex) (i : Nat) (color : ct_rgb) (k : Nat) :
    buddha_calls c z i color (k + 1)
      = (cadd (cmul z z) c, buddha_color i color) ::
          buddha_calls c (cadd (cmul z z) c) (i + 1) (buddha_color i color) k := by
  unfold buddha_calls
  rw [List.range_succ_eq_map, List.map_cons, List.map_map]
  congr 1
  apply List.map_congr_left
  intro j _
  simp only [Function.comp_apply, Nat.succ_eq_add_one]
  rw [buddha_orbit_shift]
  rfl

theorem buddha_loop_spec (c : ct_complex) (k : Nat) :
    ∀ (i : Nat) (z : ct_complex) (color : ct_rgb) (plot : ct_logged), plot.plot.canvas.valid →
      ∃ out, ct_all_plotting_buddha_loop c i k z color plot = some (buddha_orbit c z k, out) ∧
        replays plot out (buddha_calls c z i color k) := by
  induction k with
  | zero =>
    intro i z color plot hv
    exact ⟨plot, rfl, replays_nil plot hv⟩
  | succ k ih =>
    intro i z color plot hv
    obtain ⟨plot1, h1, r1⟩ :=
      ct_plot_add_logged_spec plot (cadd (cmul z z) c) (buddha_color i color) hv
    obtain ⟨out, h2, r2⟩ :=
      ih (i + 1) (cadd (cmul z z) c) (buddha_color i color) plot1 r1.2.2.2.2.2
    refine ⟨out, ?_, ?_⟩
    · show (match ct_plot_add_logged plot (cadd (cmul z z) c) (buddha_color i color) with
        | none => none
        | some plot1 => ct_all_plotting_buddha_loop c (i + 1) k (cadd (cmul z z) c)
            (buddha_color i color) plot1) = _
      rw [h1, buddha_orbit_shift]
      exact h2
    · rw [buddha_calls_succ]
      exact replays_append r1 r2

/-- C17: on a valid canvas `ct_all_plotting_buddha(plot, z0, c, n)` returns
`z_n` and makes exactly `n` `ct_plot_add` calls, all returning true, at the
points `z_1, ..., z_n` with `z_0 = z0` and `z_(k+1) = z_k^2 + c`; the weights of
call number `j` are the colour after `j + 1` colour steps from the zeroed
colour, an expression in which neither `z0` nor `c` occurs; the first three are
(red, green, blue) = (0.3405, 0, 0.2905), (0.3405, 0.3405, 0.53575) and
(0.3405, 0.3405, 0.608375), so that for the use of the engine (`c = z0`,
`n = 3`) the calls are exactly those three, at `z_1`, `z_2`, `z_3`. -/
theorem ct_all_plotting_buddha_calls (plot : ct_logged) (z0 c : ct_complex) (n : Nat)
    (hv : plot.plot.canvas.valid) :
    (∃ out, ct_all_plotting_buddha plot z0 c n = some (buddha_orbit c z0 n, out) ∧
      out.calls = plot.calls ++ (List.range n).map
        (fun j => (buddha_orbit c z0 (j + 1), buddha_colors 0 (CT_RGB 0 0 0) (j + 1))) ∧
      ((List.range n).map
        (fun j => (buddha_orbit c z0 (j + 1), buddha_colors 0 (CT_RGB 0 0 0) (j + 1)))).length
          = n ∧
      ct_plot_add_seq plot.plot ((List.range n).map
        (fun j => (buddha_orbit c z0 (j + 1), buddha_colors 0 (CT_RGB 0 0 0) (j + 1))))
          = some (List.replicate n true, out.plot)) ∧
    buddha_colors 0 (CT_RGB 0 0 0) 1 = buddha_weight_1 ∧
    buddha_colors 0 (CT_RGB 0 0 0) 2 = buddha_weight_2 ∧
    buddha_colors 0 (CT_RGB 0 0 0) 3 = buddha_weight_3 ∧
    (∃ out, ct_all_plotting_buddha plot z0 z0 3 = some (buddha_orbit z0 z0 3, out) ∧
      out.calls = plot.calls ++
        [(buddha_orbit z0 z0 1, buddha_weight_1), (buddha_orbit z0 z0 2, buddha_weight_2),
         (buddha_orbit z0 z0 3, buddha_weight_3)]) := by
  have w1 : buddha_colors 0 (CT_RGB 0 0 0) 1 = buddha_weight_1 := by decide!
  have w2 : buddha_colors 0 (CT_RGB 0 0 0) 2 = buddha_weight_2 := by decide!
  have w3 : buddha_colors 0 (CT_RGB 0 0 0) 3 = buddha_weight_3 := by decide!
  refine ⟨?_, w1, w2, w3, ?_⟩
  · obtain ⟨out, h1, r1, r2, _⟩ := buddha_loop_spec c n 0 z0 (CT_RGB 0 0 0) plot hv
    refine ⟨out, h1, r1, by simp, ?_⟩
    have hlen : (buddha_calls c z0 0 (CT_RGB 0 0 0) n).length = n := by simp [buddha_calls]
    rw [hlen] at r2
    exact r2
  · obtain ⟨out, h1, r1, _⟩ := buddha_loop_spec z0 3 0 z0 (CT_RGB 0 0 0) plot hv
    refine ⟨out, h1, ?_⟩
    rw [r1]
    simp only [buddha_calls, List.range_succ, List.range_zero, List.nil_append,
      List.map_append, List.map_cons, List.map_nil, List.cons_append, w1, w2, w3]

/-- C17 on the zeroed 4x4 plot, from the origin with `c` the origin and `n = 3`. -/
theorem ct_all_plotting_buddha_calls_witness :
    plot4.canvas.valid ∧
    ((∃ out, ct_all_plotting_buddha { plot := plot4, calls := [] } z_origin z_origin 3
        = some (buddha_orbit z_origin z_origin 3, out) ∧
      out.calls = ([] : List (ct_complex × ct_rgb)) ++ (List.range 3).map
        (fun j => (buddha_orbit z_origin z_origin (j + 1),
          buddha_colors 0 (CT_RGB 0 0 0) (j + 1))) ∧
      ((List.range 3).map
        (fun j => (buddha_orbit z_origin z_origin (j + 1),
          buddha_colors 0 (CT_RGB 0 0 0) (j + 1)))).length = 3 ∧
      ct_plot_add_seq plot4 ((List.range 3).map
        (fun j => (buddha_orbit z_origin z_origin (j + 1),
          buddha_colors 0 (CT_RGB 0 0 0) (j + 1))))
          = some (List.replicate 3 true, out.plot)) ∧
    buddha_colors 0 (CT_RGB 0 0 0) 1 = buddha_weight_1 ∧
    buddha_colors 0 (CT_RGB 0 0 0) 2 = buddha_weight_2 ∧
    buddha_colors 0 (CT_RGB 0 0 0) 3 = buddha_weight_3 ∧
    (∃ out, ct_all_plotting_buddha { plot := plot4, calls := [] } z_origin z_origin 3
        = some (buddha_orbit z_origin z_origin 3, out) ∧
      out.calls = ([] : List (ct_complex × ct_rgb)) ++
        [(buddha_orbit z_origin z_origin 1, buddha_weight_1),
         (buddha_orbit z_origin z_origin 2, buddha_weight_2),
         (buddha_orbit z_origin z_origin 3, buddha_weight_3)])) :=
  ⟨by decide,
    ct_all_plotting_buddha_calls { plot := plot4, calls := [] } z_origin z_origin 3 (by decide)⟩

/-! ## The walk of `ct_ifs` -/

theorem ct_ifs_select_ok (rn0 : ℚ) (color : ct_rgb) (h : ifs_color_ok color) :
    ifs_color_ok (ct_ifs_select rn0 color).2 := by
  obtain ⟨h1, h2, h3, h4, h5⟩ := h
  unfold ct_ifs_select ifs_color_ok
  split_ifs <;> simp only <;> refine ⟨?_, ?_, ?_, ?_, ?_⟩ <;> linarith

theorem ct_ifs_advance_ok (rn1 : ℚ) (root : ct_complex) (color : ct_rgb)
    (h : ifs_color_ok color) : ifs_color_ok (ct_ifs_advance rn1 root color).2 := by
  obtain ⟨h1, h2, h3, h4, h5⟩ := h
  unfold ct_ifs_advance ifs_color_ok
  split_ifs <;> simp only <;> refine ⟨?_, ?_, ?_, ?_, ?_⟩ <;> linarith

theorem buddha_calls_engine (z : ct_complex) :
    buddha_calls z z 0 (CT_RGB 0 0 0) 3
      = [(buddha_orbit z z 1, buddha_weight_1), (buddha_orbit z z 2, buddha_weight_2),
         (buddha_orbit z z 3, buddha_weight_3)] := by
  have w1 : buddha_colors 0 (CT_RGB 0 0 0) 1 = buddha_weight_1 := by decide!
  have w2 : buddha_colors 0 (CT_RGB 0 0 0) 2 = buddha_weight_2 := by decide!
  have w3 : buddha_colors 0 (CT_RGB 0 0 0) 3 = buddha_weight_3 := by decide!
  simp only [buddha_calls, List.range_succ, List.range_zero, List.nil_append,
    List.map_append, List.map_cons, List.map_nil, List.cons_append, w1, w2, w3]

theorem ct_ifs_sample_spec (csqrt : ct_complex → ct_complex) (RAND_MAX : Nat) (rand : Nat → Nat)
    (n i : Nat) (s : ifs_state) (hv : s.plot.plot.canvas.valid) (hn : 3 ≤ n) :
    ∃ s1, ct_ifs_sample csqrt RAND_MAX rand n i s = some s1 ∧
      s1.color = (ct_ifs_advance ((rand (2 * i + 1) : ℚ) / (RAND_MAX : ℚ))
        (csqrt (csub s.z (ct_ifs_select ((rand (2 * i) : ℚ) / (RAND_MAX : ℚ)) s.color).1))
        (ct_ifs_select ((rand (2 * i) : ℚ) / (RAND_MAX : ℚ)) s.color).2).2 ∧
      replays s.plot s1.plot
        (if 100 < i then
          [(buddha_orbit s.z s.z 1, buddha_weight_1), (buddha_orbit s.z s.z 2, buddha_weight_2),
           (buddha_orbit s.z s.z 3, buddha_weight_3),
           (s.z, (ct_ifs_select ((rand (2 * i) : ℚ) / (RAND_MAX : ℚ)) s.color).2)]
        else []) := by
  have hn3 : ¬ n / 3 = 0 := by omega
  unfold ct_ifs_sample
  by_cases hi : i > 100
  · obtain ⟨p1, h1, r1⟩ := buddha_loop_spec s.z 3 0 s.z (CT_RGB 0 0 0) s.plot hv
    obtain ⟨p2, h2, r2⟩ := ct_plot_add_logged_spec p1 s.z
      (ct_ifs_select ((rand (2 * i) : ℚ) / (RAND_MAX : ℚ)) s.color).2 r1.2.2.2.2.2
    have hr := replays_append r1 r2
    rw [buddha_calls_engine] at hr
    have hb : ct_all_plotting_buddha s.plot s.z s.z 3 = some (buddha_orbit s.z s.z 3, p1) := h1
    simp only [if_pos hi, hb, h2, if_neg hn3]
    exact ⟨_, rfl, rfl, hr⟩
  · simp only [if_neg hi, if_neg hn3]
    exact ⟨_, rfl, rfl, replays_nil _ hv⟩

theorem samples_plotted_succ (i k : Nat) :
    samples_plotted i (k + 1) = (if 100 < i then 1 else 0) + samples_plotted (i + 1) k := by
  unfold samples_plotted
  split <;> omega

theorem ct_ifs_loop_spec (csqrt : ct_complex → ct_complex) (RAND_MAX : Nat) (rand : Nat → Nat)
    (n k : Nat) :
    ∀ (i : Nat) (s : ifs_state), s.plot.plot.canvas.valid → ifs_color_ok s.color →
      (k = 0 ∨ 3 ≤ n) →
      ∃ s1 new, ct_ifs_loop csqrt RAND_MAX rand n i k s = some s1 ∧ ifs_color_ok s1.color ∧
        replays s.plot s1.plot new ∧ new.length = 4 * samples_plotted i k ∧
        ∀ call ∈ new, call_ok call := by
  induction k with
  | zero =>
    intro i s hv hc _
    refine ⟨s, [], rfl, hc, replays_nil _ hv, ?_, ?_⟩
    · simp [samples_plotted]
    · intro call hcall; cases hcall
  | succ k ih =>
    intro i s hv hc hn
    have hn3 : 3 ≤ n := by omega
    obtain ⟨s1, h1, hcol, r1⟩ := ct_ifs_sample_spec csqrt RAND_MAX rand n i s hv hn3
    have hc1 : ifs_color_ok s1.color := by
      rw [hcol]
      exact ct_ifs_advance_ok _ _ _ (ct_ifs_select_ok _ _ hc)
    obtain ⟨s2, new2, h2, hc2, r2, hlen2, hok2⟩ := ih (i + 1) s1 r1.2.2.2.2.2 hc1 (Or.inr hn3)
    refine ⟨s2, _, ?_, hc2, replays_append r1 r2, ?_, ?_⟩
    · show (match ct_ifs_sample csqrt RAND_MAX rand n i s with
        | none => none
        | some s1 => ct_ifs_loop csqrt RAND_MAX rand n (i + 1) k s1) = some s2
      rw [h1]
      exact h2
    · rw [List.length_append, hlen2, samples_plotted_succ]
      split <;> (simp only [List.length_cons, List.length_nil]; omega)
    · intro call hcall
      rcases List.mem_append.1 hcall with h | h
      · split at h
        · simp only [List.mem_cons, List.mem_singleton, List.mem_nil_iff, or_false] at h
          rcases h with rfl | rfl | rfl | rfl
          · exact Or.inl rfl
          · exact Or.inr (Or.inl rfl)
          · exact Or.inr (Or.inr (Or.inl rfl))
          · exact Or.inr (Or.inr (Or.inr (ct_ifs_select_ok _ _ hc)))
        · cases h
      · exact hok2 call h

theorem ct_ifs_run (csqrt : ct_complex → ct_complex) (RAND_MAX : Nat) (rand : Nat → Nat)
    (plot : ct_plot) (n : Nat) (hv : plot.canvas.valid) (hn : n = 0 ∨ 3 ≤ n) :
    ∃ out, ct_ifs csqrt RAND_MAX rand { plot := plot, calls := [] } n = some out ∧
      ct_plot_add_seq plot out.calls = some (List.replicate out.calls.length true, out.plot) ∧
      out.plot.canvas.valid ∧
      out.calls.length = 4 * (n - 101) ∧
      ∀ call ∈ out.calls, call_ok call := by
  have hc : ifs_color_ok (ifs_start { plot := plot, calls := [] }).color := by
    refine ⟨?_, ?_, ?_, ?_, ?_⟩ <;> norm_num [ifs_start, CT_RGB]
  obtain ⟨s1, new, h1, _, r1, hlen, hok⟩ :=
    ct_ifs_loop_spec csqrt RAND_MAX rand n n 0 (ifs_start { plot := plot, calls := [] }) hv hc hn
  obtain ⟨e1, e2, _, _, _, e6⟩ := r1
  have hcalls : s1.plot.calls = new := by
    rw [e1]
    exact List.nil_append new
  refine ⟨s1.plot, ?_, ?_, e6, ?_, ?_⟩
  · unfold ct_ifs
    rw [h1]
    rfl
  · rw [hcalls]
    exact e2
  · rw [hcalls, hlen]
    unfold samples_plotted
    omega
  · rw [hcalls]
    exact hok

theorem call_ok_bounds {call : ct_complex × ct_rgb} (h : call_ok call) :
    0 ≤ call.2.meta.red ∧ 0 ≤ call.2.meta.green ∧ call.2.meta.green ≤ 1 ∧
    0 ≤ call.2.meta.blue ∧ call.2.meta.blue ≤ 1 := by
  rcases h with h | h | h | h
  · rw [h]; refine ⟨?_, ?_, ?_, ?_, ?_⟩ <;> norm_num [buddha_weight_1, CT_RGB]
  · rw [h]; refine ⟨?_, ?_, ?_, ?_, ?_⟩ <;> norm_num [buddha_weight_2, CT_RGB]
  · rw [h]; refine ⟨?_, ?_, ?_, ?_, ?_⟩ <;> norm_num [buddha_weight_3, CT_RGB]
  · obtain ⟨h1, h2, h3, h4, h5⟩ := h
    exact ⟨h1, h2, by linarith, h4, by linarith⟩

theorem ct_plot_add_seq_monotone (calls : List (ct_complex × ct_rgb)) (self : ct_plot)
    (hv : self.canvas.valid)
    (hpos : ∀ call ∈ calls, 0 ≤ call.2.meta.red ∧ 0 ≤ call.2.meta.green ∧ 0 ≤ call.2.meta.blue)
    (k : Nat) (hk : k < calls.length) :
    ∃ (call : ct_complex × ct_rgb) (before after : ct_plot), calls[k]? = some call ∧
      ct_plot_add_seq self (calls.take k) = some (List.replicate k true, before) ∧
      ct_plot_add before call.1 call.2 = some (true, after) ∧
      ∀ (j : Nat) (c0 : ct_rgb), before.canvas.buf[j]? = some c0 →
        ∃ c1 : ct_rgb, after.canvas.buf[j]? = some c1 ∧
        c0.meta.red ≤ c1.meta.red ∧ c0.meta.green ≤ c1.meta.green ∧
        c0.meta.blue ≤ c1.meta.blue ∧ c0.meta.alpha ≤ c1.meta.alpha := by
  obtain ⟨before, h1, _, _, _, hvb, _⟩ := ct_plot_add_seq_spec (calls.take k) self hv
  have hlen : (calls.take k).length = k := by
    rw [List.length_take]; omega
  rw [hlen] at h1
  obtain ⟨after, h2, _, _, _, _, hcells⟩ :=
    plot_cell_step before (calls[k]).1 (add_rgb (calls[k]).2) hvb
  have hw := hpos (calls[k]) (List.getElem_mem _)
  refine ⟨calls[k], before, after, List.getElem?_eq_getElem hk, h1, ?_, ?_⟩
  · rw [ct_plot_add_eq]; exact h2
  · intro j c0 hj
    refine ⟨_, hcells j c0 hj, ?_⟩
    split
    · refine ⟨?_, ?_, ?_, ?_⟩ <;> simp only [add_rgb] <;> linarith
    · exact ⟨le_refl _, le_refl _, le_refl _, le_refl _⟩

/-- C14: a run of `ct_ifs` of `n` samples (`n = 0` or `n ≥ 3`; for `n = 1, 2`
the source divides by zero in `i % (n / 3)` at the first sample, before any
call) on a valid canvas, for every `csqrt`, `RAND_MAX` and sequence of draws:
the run completes, every colour weight it passes to `ct_plot_add` (outer walk
and forward sub-orbit) is `≥ 0`, the plot at the end is the plot after the
recorded calls, and from each call to the next every accumulator (red, green
and blue sum, hit count) of every cell is non-decreasing. -/
theorem ct_ifs_accumulators_monotone (csqrt : ct_complex → ct_complex) (RAND_MAX : Nat)
    (rand : Nat → Nat) (plot : ct_plot) (n : Nat) (hv : plot.canvas.valid)
    (hn : n = 0 ∨ 3 ≤ n) :
    ∃ out, ct_ifs csqrt RAND_MAX rand { plot := plot, calls := [] } n = some out ∧
      (∀ call ∈ out.calls,
        0 ≤ call.2.meta.red ∧ 0 ≤ call.2.meta.green ∧ 0 ≤ call.2.meta.blue) ∧
      ct_plot_add_seq plot out.calls = some (List.replicate out.calls.length true, out.plot) ∧
      ∀ k, k < out.calls.length →
        ∃ (call : ct_complex × ct_rgb) (before after : ct_plot), out.calls[k]? = some call ∧
          ct_plot_add_seq plot (out.calls.take k) = some (List.replicate k true, before) ∧
          ct_plot_add before call.1 call.2 = some (true, after) ∧
          ∀ (j : Nat) (c0 : ct_rgb), before.canvas.buf[j]? = some c0 →
            ∃ c1 : ct_rgb, after.canvas.buf[j]? = some c1 ∧
              c0.meta.red ≤ c1.meta.red ∧ c0.meta.green ≤ c1.meta.green ∧
              c0.meta.blue ≤ c1.meta.blue ∧ c0.meta.alpha ≤ c1.meta.alpha := by
  obtain ⟨out, h1, h2, _, _, hok⟩ := ct_ifs_run csqrt RAND_MAX rand plot n hv hn
  have hpos : ∀ call ∈ out.calls,
      0 ≤ call.2.meta.red ∧ 0 ≤ call.2.meta.green ∧ 0 ≤ call.2.meta.blue := by
    intro call hcall
    obtain ⟨b1, b2, _, b4, _⟩ := call_ok_bounds (hok call hcall)
    exact ⟨b1, b2, b4⟩
  exact ⟨out, h1, hpos, h2, fun k hk => ct_plot_add_seq_monotone out.calls plot hv hpos k hk⟩

/-- C14 on the zeroed 4x4 plot, for a run of 102 samples with the draws
`rand_hot`: the run issues four calls. -/
theorem ct_ifs_accumulators_monotone_witness :
    (ct_ifs csqrt_probe 32767 rand_hot { plot := plot4, calls := [] } 102).map
      (fun out => out.calls.length) = some 4 ∧
    plot4.canvas.valid ∧ (102 = 0 ∨ 3 ≤ 102) ∧
    ∃ out, ct_ifs csqrt_probe 32767 rand_hot { plot := plot4, calls := [] } 102 = some out ∧
      (∀ call ∈ out.calls,
        0 ≤ call.2.meta.red ∧ 0 ≤ call.2.meta.green ∧ 0 ≤ call.2.meta.blue) ∧
      ct_plot_add_seq plot4 out.calls = some (List.replicate out.calls.length true, out.plot) ∧
      ∀ k, k < out.calls.length →
        ∃ (call : ct_complex × ct_rgb) (before after : ct_plot), out.calls[k]? = some call ∧
          ct_plot_add_seq plot4 (out.calls.take k) = some (List.replicate k true, before) ∧
          ct_plot_add before call.1 call.2 = some (true, after) ∧
          ∀ (j : Nat) (c0 : ct_rgb), before.canvas.buf[j]? = some c0 →
            ∃ c1 : ct_rgb, after.canvas.buf[j]? = some c1 ∧
              c0.meta.red ≤ c1.meta.red ∧ c0.meta.green ≤ c1.meta.green ∧
              c0.meta.blue ≤ c1.meta.blue ∧ c0.meta.alpha ≤ c1.meta.alpha :=
  ⟨by decide!, by decide, by decide,
    ct_ifs_accumulators_monotone csqrt_probe 32767 rand_hot plot4 102 (by decide) (by decide)⟩

/-- C15 fails as stated: in the sample of index 101 with the current iterate
`z = 3 + 6i` the forward sub-orbit ends at `z3 = -2635872 + 4763706i`, and the
fourth call of the sample is at `3 + 6i`, the current iterate, not at `z3`. -/
theorem ct_ifs_outer_call_counterexample :
    (ct_ifs_sample csqrt_probe 32767 rand_hot 102 101 state_probe).map
      (fun s => s.plot.calls.map (fun call => call.1))
      = some [{ re := -24, im := 42 }, { re := -1185, im := -2010 },
              { re := -2635872, im := 4763706 }, { re := 3, im := 6 }] ∧
    state_probe.z = { re := 3, im := 6 } ∧
    buddha_orbit state_probe.z state_probe.z 3 = { re := -2635872, im := 4763706 } ∧
    buddha_orbit state_probe.z state_probe.z 3 ≠ state_probe.z :=
  ⟨by decide!, by decide!, by decide!, by decide!⟩

/-- C15, amended: in every sample of `ct_ifs` of index above 100 with current
iterate `z` (valid canvas, `n ≥ 3`), the sample issues exactly four calls: the
three calls of the forward sub-orbit at `z1 = z^2 + z`, `z2 = z1^2 + z`,
`z3 = z2^2 + z`, and then one more at the current iterate `z` itself (the value
`z3` that the sub-orbit returns is not used), with the outer colour-weight
triplet as the parameter selection of the sample left it. -/
theorem ct_ifs_outer_call (csqrt : ct_complex → ct_complex) (RAND_MAX : Nat)
    (rand : Nat → Nat) (n i : Nat) (s : ifs_state) (hv : s.plot.plot.canvas.valid)
    (hn : 3 ≤ n) (hi : 100 < i) :
    ∃ s1, ct_ifs_sample csqrt RAND_MAX rand n i s = some s1 ∧
      ct_all_plotting_buddha s.plot s.z s.z 3 ≠ none ∧
      (ct_all_plotting_buddha s.plot s.z s.z 3).map (fun r => r.1)
        = some (buddha_orbit s.z s.z 3) ∧
      s1.plot.calls = s.plot.calls ++
        [(buddha_orbit s.z s.z 1, buddha_weight_1), (buddha_orbit s.z s.z 2, buddha_weight_2),
         (buddha_orbit s.z s.z 3, buddha_weight_3),
         (s.z, (ct_ifs_select ((rand (2 * i) : ℚ) / (RAND_MAX : ℚ)) s.color).2)] := by
  obtain ⟨s1, h1, _, r1⟩ := ct_ifs_sample_spec csqrt RAND_MAX rand n i s hv hn
  rw [if_pos hi] at r1
  obtain ⟨p1, hb, _⟩ := buddha_loop_spec s.z 3 0 s.z (CT_RGB 0 0 0) s.plot hv
  have hb1 : ct_all_plotting_buddha s.plot s.z s.z 3 = some (buddha_orbit s.z s.z 3, p1) := hb
  refine ⟨s1, h1, ?_, ?_, r1.1⟩
  · rw [hb1]; exact fun h => Option.noConfusion h
  · rw [hb1]; rfl

/-- C15 amended, on the sample of index 101 from the state with `z = 3 + 6i`. -/
theorem ct_ifs_outer_call_witness :
    state_probe.plot.plot.canvas.valid ∧ 3 ≤ 102 ∧ 100 < 101 ∧
    ∃ s1, ct_ifs_sample csqrt_probe 32767 rand_hot 102 101 state_probe = some s1 ∧
      ct_all_plotting_buddha state_probe.plot state_probe.z state_probe.z 3 ≠ none ∧
      (ct_all_plotting_buddha state_probe.plot state_probe.z state_probe.z 3).map (fun r => r.1)
        = some (buddha_orbit state_probe.z state_probe.z 3) ∧
      s1.plot.calls = state_probe.plot.calls ++
        [(buddha_orbit state_probe.z state_probe.z 1, buddha_weight_1),
         (buddha_orbit state_probe.z state_probe.z 2, buddha_weight_2),
         (buddha_orbit state_probe.z state_probe.z 3, buddha_weight_3),
         (state_probe.z,
           (ct_ifs_select ((rand_hot (2 * 101) : ℚ) / ((32767 : Nat) : ℚ)) state_probe.color).2)] :=
  ⟨by decide, by decide, by decide,
    ct_ifs_outer_call csqrt_probe 32767 rand_hot 102 101 state_probe (by decide) (by decide)
      (by decide)⟩

/-- C16 fails as stated: a run of 101 samples issues no call at all, where
`4 * (101 - 100) = 4` calls are stated; the sample of index 100 is still
discarded. -/
theorem ct_ifs_warm_up_counterexample :
    (ct_ifs csqrt_probe 32767 rand_zero { plot := plot4, calls := [] } 101).map
      (fun out => out.calls.length) = some 0 ∧
    4 * (101 - 100) = 4 ∧
    (ct_ifs csqrt_probe 32767 rand_zero { plot := plot4, calls := [] } 102).map
      (fun out => out.calls.length) = some 4 :=
  ⟨by decide!, by decide, by decide!⟩

/-- C16, amended: warm-up of `ct_ifs` on a valid canvas, for every `csqrt`,
`RAND_MAX` and sequence of draws.  In a run of `n ≥ 3` samples every sample of
index `i ≤ 100` (the first 101 samples) issues no call and every sample of index
`i ≥ 101` issues exactly four (3 of the sub-orbit and 1 outer); a run of `n`
samples (`n = 0` or `n ≥ 3`) issues exactly `4 * (n - 101)` calls, none when
`n ≤ 101`. -/
theorem ct_ifs_warm_up (csqrt : ct_complex → ct_complex) (RAND_MAX : Nat)
    (rand : Nat → Nat) (plot : ct_plot) (n : Nat) (hv : plot.canvas.valid)
    (hn : n = 0 ∨ 3 ≤ n) :
    (∀ (i : Nat) (s : ifs_state), s.plot.plot.canvas.valid → 3 ≤ n →
      ∃ s1, ct_ifs_sample csqrt RAND_MAX rand n i s = some s1 ∧
        s1.plot.calls.length = s.plot.calls.length + (if 100 < i then 4 else 0)) ∧
    ∃ out, ct_ifs csqrt RAND_MAX rand { plot := plot, calls := [] } n = some out ∧
      out.calls.length = 4 * (n - 101) := by
  constructor
  · intro i s hvs hn3
    obtain ⟨s1, h1, _, r1⟩ := ct_ifs_sample_spec csqrt RAND_MAX rand n i s hvs hn3
    refine ⟨s1, h1, ?_⟩
    rw [r1.1, List.length_append]
    split <;> rfl
  · obtain ⟨out, h1, _, _, hlen, _⟩ := ct_ifs_run csqrt RAND_MAX rand plot n hv hn
    exact ⟨out, h1, hlen⟩

/-- C16 amended, on the zeroed 4x4 plot: a run of 103 samples issues 8 calls. -/
theorem ct_ifs_warm_up_witness :
    plot4.canvas.valid ∧ (103 = 0 ∨ 3 ≤ 103) ∧
    ((∀ (i : Nat) (s : ifs_state), s.plot.plot.canvas.valid → 3 ≤ 103 →
      ∃ s1, ct_ifs_sample csqrt_probe 32767 rand_zero 103 i s = some s1 ∧
        s1.plot.calls.length = s.plot.calls.length + (if 100 < i then 4 else 0)) ∧
    ∃ out, ct_ifs csqrt_probe 32767 rand_zero { plot := plot4, calls := [] } 103 = some out ∧
      out.calls.length = 4 * (103 - 101)) :=
  ⟨by decide, by decide,
    ct_ifs_warm_up csqrt_probe 32767 rand_zero plot4 103 (by decide) (by decide)⟩

/-! ## Colour weights of the walk -/

/-- C18 fails as stated: in the branch `c = (0, 2)` (here `rn0 = 1`) no constant
`k` gives the new red weight as `(k + old) / 2`, since red is divided by 0.5;
and in the branch `c = (1, 1)` (here `rn0 = 0`) no constant `k` gives the new
blue weight, since blue is set to 0. -/
theorem ct_ifs_select_counterexample :
    (¬ ∃ k : ℚ, ∀ color : ct_rgb,
      (ct_ifs_select 1 color).2.meta.red = (k + color.meta.red) / 2) ∧
    (¬ ∃ k : ℚ, ∀ color : ct_rgb,
      (ct_ifs_select 0 color).2.meta.blue = (k + color.meta.blue) / 2) ∧
    (ct_ifs_select 1 weight_red).1 = { re := 0, im := 2 } ∧
    (ct_ifs_select 1 weight_red).2.meta.red = 2 ∧ weight_red.meta.red = 1 ∧
    (ct_ifs_select 0 weight_red).1 = { re := 1, im := 1 } := by
  refine ⟨?_, ?_, by decide!, by decide!, by decide!, by decide!⟩
  · rintro ⟨k, hk⟩
    have h0 := hk (CT_RGB 0 0 0)
    have h1 := hk weight_red
    norm_num [ct_ifs_select, CT_RGB, weight_red] at h0 h1
    linarith
  · rintro ⟨k, hk⟩
    have h0 := hk (CT_RGB 0 0 0)
    have h1 := hk { CT_RGB 0 0 0 with meta := { red := 0, blue := 1, green := 0, alpha := 0 } }
    norm_num [ct_ifs_select, CT_RGB] at h0 h1
    linarith

/-- C18, amended: the parameter-selection step of `ct_ifs`, for every draw
`rn0` and every colour.  For `rn0 < 1/3`: `c = (1, 1)`, red and green are set to
`(0.681 + old) / 2` and blue to 0.  For `1/3 ≤ rn0 < 2/3`: `c = (-1, -1)`, red
and blue are set to `(0.681 + old) / 2` and green to 0.  Otherwise: `c = (0, 2)`,
green and blue are set to `(0.681 + old) / 2` and red is divided by 0.5, that is
doubled.  The display bytes and the hit count of the colour are kept. -/
theorem ct_ifs_select_table (rn0 : ℚ) (color : ct_rgb) :
    (rn0 < 1 / 3 →
      (ct_ifs_select rn0 color).1 = { re := 1, im := 1 } ∧
      (ct_ifs_select rn0 color).2.meta.red = (681 / 1000 + color.meta.red) / 2 ∧
      (ct_ifs_select rn0 color).2.meta.green = (681 / 1000 + color.meta.green) / 2 ∧
      (ct_ifs_select rn0 color).2.meta.blue = 0) ∧
    (1 / 3 ≤ rn0 → rn0 < 2 / 3 →
      (ct_ifs_select rn0 color).1 = { re := -1, im := -1 } ∧
      (ct_ifs_select rn0 color).2.meta.red = (681 / 1000 + color.meta.red) / 2 ∧
      (ct_ifs_select rn0 color).2.meta.green = 0 ∧
      (ct_ifs_select rn0 color).2.meta.blue = (681 / 1000 + color.meta.blue) / 2) ∧
    (2 / 3 ≤ rn0 →
      (ct_ifs_select rn0 color).1 = { re := 0, im := 2 } ∧
      (ct_ifs_select rn0 color).2.meta.red = 2 * color.meta.red ∧
      (ct_ifs_select rn0 color).2.meta.green = (681 / 1000 + color.meta.green) / 2 ∧
      (ct_ifs_select rn0 color).2.meta.blue = (681 / 1000 + color.meta.blue) / 2) ∧
    (ct_ifs_select rn0 color).2.r = color.r ∧ (ct_ifs_select rn0 color).2.g = color.g ∧
    (ct_ifs_select rn0 color).2.b = color.b ∧
    (ct_ifs_select rn0 color).2.meta.alpha = color.meta.alpha := by
  refine ⟨?_, ?_, ?_, ?_, ?_, ?_, ?_⟩
  · intro h1
    unfold ct_ifs_select
    rw [if_pos h1]
    exact ⟨rfl, rfl, rfl, rfl⟩
  · intro h1 h2
    unfold ct_ifs_select
    rw [if_neg (not_lt.2 h1), if_pos h2]
    exact ⟨rfl, rfl, rfl, rfl⟩
  · intro h2
    have h1 : ¬ rn0 < 1 / 3 := not_lt.2 (le_trans (by norm_num) h2)
    unfold ct_ifs_select
    rw [if_neg h1, if_neg (not_lt.2 h2)]
    refine ⟨rfl, ?_, rfl, rfl⟩
    show color.meta.red / (1 / 2) = 2 * color.meta.red
    rw [div_div_eq_mul_div, div_one, mul_comm]
  · unfold ct_ifs_select; split_ifs <;> rfl
  · unfold ct_ifs_select; split_ifs <;> rfl
  · unfold ct_ifs_select; split_ifs <;> rfl
  · unfold ct_ifs_select; split_ifs <;> rfl

/-- C18 amended, at the draw `rn0 = 1` and the colour with red weight 1. -/
theorem ct_ifs_select_table_witness :
    (2 : ℚ) / 3 ≤ 1 ∧
    (ct_ifs_select 1 weight_red).1 = { re := 0, im := 2 } ∧
    (ct_ifs_select 1 weight_red).2.meta.red = 2 * weight_red.meta.red ∧
    (ct_ifs_select 1 weight_red).2.meta.green = (681 / 1000 + weight_red.meta.green) / 2 ∧
    (ct_ifs_select 1 weight_red).2.meta.blue = (681 / 1000 + weight_red.meta.blue) / 2 :=
  ⟨by decide!, (ct_ifs_select_table 1 weight_red).2.2.1 (by decide!)⟩

/-- C19 fails as stated: in the run of 102 samples with the draws `rand_hot`
(the branch `c = (1, 1)` and the root `-root` in the samples 0 to 100, then the
branch `c = (0, 2)` in the sample 101) the fourth call, the outer call of the
sample 101, has a red weight above 1. -/
theorem ct_ifs_weight_bound_counterexample :
    (ct_ifs csqrt_probe 32767 rand_hot { plot := plot4, calls := [] } 102).map
      (fun out => out.calls.map (fun call => decide (1 < call.2.meta.red)))
      = some [false, false, false, true] :=
  by decide!

/-- C19, amended: in a run of `ct_ifs` of `n` samples (`n = 0` or `n ≥ 3`) on a
valid canvas, for every `csqrt`, `RAND_MAX` and sequence of draws, every call
passes either one of the three colours of the forward sub-orbit, whose weights
all lie between 0 and 1, or the colour of the outer walk, whose green and blue
weights lie between 0 and 0.681 and whose red weight is `≥ 0`; so every weight
is `≥ 0` and every green and blue weight is at most 1.  (The red weight of the
outer walk has no bound of 1: it is doubled in the branch `c = (0, 2)`.) -/
theorem ct_ifs_weight_bounds (csqrt : ct_complex → ct_complex) (RAND_MAX : Nat)
    (rand : Nat → Nat) (plot : ct_plot) (n : Nat) (hv : plot.canvas.valid)
    (hn : n = 0 ∨ 3 ≤ n) :
    (∃ out, ct_ifs csqrt RAND_MAX rand { plot := plot, calls := [] } n = some out ∧
      ∀ call ∈ out.calls,
        (call.2 = buddha_weight_1 ∨ call.2 = buddha_weight_2 ∨ call.2 = buddha_weight_3 ∨
          (0 ≤ call.2.meta.red ∧ 0 ≤ call.2.meta.green ∧ call.2.meta.green ≤ 681 / 1000 ∧
            0 ≤ call.2.meta.blue ∧ call.2.meta.blue ≤ 681 / 1000)) ∧
        0 ≤ call.2.meta.red ∧ 0 ≤ call.2.meta.green ∧ call.2.meta.green ≤ 1 ∧
        0 ≤ call.2.meta.blue ∧ call.2.meta.blue ≤ 1) ∧
    (0 ≤ buddha_weight_1.meta.red ∧ buddha_weight_1.meta.red ≤ 1) ∧
    (0 ≤ buddha_weight_2.meta.red ∧ buddha_weight_2.meta.red ≤ 1) ∧
    (0 ≤ buddha_weight_3.meta.red ∧ buddha_weight_3.meta.red ≤ 1) := by
  refine ⟨?_, by decide!, by decide!, by decide!⟩
  obtain ⟨out, h1, _, _, _, hok⟩ := ct_ifs_run csqrt RAND_MAX rand plot n hv hn
  exact ⟨out, h1, fun call hcall => ⟨hok call hcall, call_ok_bounds (hok call hcall)⟩⟩

/-- C19 amended, on the zeroed 4x4 plot with the draws `rand_hot` and 102 samples. -/
theorem ct_ifs_weight_bounds_witness :
    plot4.canvas.valid ∧ (102 = 0 ∨ 3 ≤ 102) ∧
    ((∃ out, ct_ifs csqrt_probe 32767 rand_hot { plot := plot4, calls := [] } 102 = some out ∧
      ∀ call ∈ out.calls,
        (call.2 = buddha_weight_1 ∨ call.2 = buddha_weight_2 ∨ call.2 = buddha_weight_3 ∨
          (0 ≤ call.2.meta.red ∧ 0 ≤ call.2.meta.green ∧ call.2.meta.green ≤ 681 / 1000 ∧
            0 ≤ call.2.meta.blue ∧ call.2.meta.blue ≤ 681 / 1000)) ∧
        0 ≤ call.2.meta.red ∧ 0 ≤ call.2.meta.green ∧ call.2.meta.green ≤ 1 ∧
        0 ≤ call.2.meta.blue ∧ call.2.meta.blue ≤ 1) ∧
    (0 ≤ buddha_weight_1.meta.red ∧ buddha_weight_1.meta.red ≤ 1) ∧
    (0 ≤ buddha_weight_2.meta.red ∧ buddha_weight_2.meta.red ≤ 1) ∧
    (0 ≤ buddha_weight_3.meta.red ∧ buddha_weight_3.meta.red ≤ 1)) :=
  ⟨by decide, by decide,
    ct_ifs_weight_bounds csqrt_probe 32767 rand_hot plot4 102 (by decide) (by decide)⟩

/-! ## The part of the plane that is plotted -/

theorem trunc_gt_neg_one (q : ℚ) : -1 < trunc q ↔ -1 < q := by
  unfold trunc
  split
  · rename_i h
    have h1 : 0 ≤ ⌊q⌋ := Int.floor_nonneg.2 h
    constructor
    · intro _; linarith
    · intro _; omega
  · have h2 : ((-1 : Int) : ℚ) = -1 := by norm_num
    rw [Int.lt_ceil, h2]

theorem trunc_lt_nat (q : ℚ) {W : Nat} (hW : 1 ≤ W) : trunc q < (W : Int) ↔ q < (W : ℚ) := by
  unfold trunc
  split
  · rw [Int.floor_lt]
    norm_cast
  · rename_i h
    have hq : q < 0 := not_le.1 h
    have h1 : ⌈q⌉ ≤ 0 := Int.ceil_le.2 (by exact_mod_cast hq.le)
    have h2 : (1 : ℚ) ≤ (W : ℚ) := by exact_mod_cast hW
    constructor
    · intro _; linarith
    · intro _; omega

theorem trunc_of_small_neg {q : ℚ} (h0 : q < 0) (h1 : -1 < q) : trunc q = 0 := by
  unfold trunc
  rw [if_neg (not_le.2 h0)]
  have h2 : ⌈q⌉ ≤ 0 := Int.ceil_le.2 (by exact_mod_cast h0.le)
  have h3 : (-1 : Int) < ⌈q⌉ := Int.lt_ceil.2 (by norm_num; exact h1)
  omega

theorem pixel_ok_iff_in_window (plane : ct_plane) (W H : Nat) (hW : 1 ≤ W) (hH : 1 ≤ H)
    (hxs : 0 < plane.xstep) (hys : 0 < plane.ystep) (z : ct_complex) :
    pixel_ok plane W H z ↔ in_window plane W H z := by
  have a1 : 0 ≤ pixel_x plane z ↔ plane.axes.xmin - plane.xstep < z.re := by
    have : 0 ≤ pixel_x plane z ↔ -1 < pixel_x plane z := by omega
    rw [this]
    unfold pixel_x
    rw [trunc_gt_neg_one, lt_div_iff₀ hxs]
    constructor <;> intro h <;> linarith
  have a2 : pixel_x plane z < (W : Int) ↔ z.re < plane.axes.xmin + (W : ℚ) * plane.xstep := by
    unfold pixel_x
    rw [trunc_lt_nat _ hW, div_lt_iff₀ hxs]
    constructor <;> intro h <;> linarith
  have a3 : 0 ≤ pixel_y plane z ↔ z.im < plane.axes.ymax + plane.ystep := by
    have : 0 ≤ pixel_y plane z ↔ -1 < pixel_y plane z := by omega
    rw [this]
    unfold pixel_y
    rw [trunc_gt_neg_one, lt_div_iff₀ hys]
    constructor <;> intro h <;> linarith
  have a4 : pixel_y plane z < (H : Int) ↔ plane.axes.ymax - (H : ℚ) * plane.ystep < z.im := by
    unfold pixel_y
    rw [trunc_lt_nat _ hH, div_lt_iff₀ hys]
    constructor <;> intro h <;> linarith
  unfold pixel_ok in_window
  rw [a1, a2, a3, a4]
  constructor
  · rintro ⟨h1, h2, h3, h4⟩; exact ⟨h1, h2, h4, h3⟩
  · rintro ⟨h1, h2, h3, h4⟩; exact ⟨h1, h2, h4, h3⟩

theorem plot_cell_frame (self : ct_plot) (z : ct_complex) (upd : ct_rgb → ct_rgb) (miss : Bool)
    (hv : self.canvas.valid) :
    (¬ pixel_ok self.plane self.canvas.width self.canvas.height z →
      plot_cell self z upd miss = some (miss, self)) ∧
    (pixel_ok self.plane self.canvas.width self.canvas.height z →
      ∃ out, plot_cell self z upd miss = some (true, out) ∧
        ∀ j, j ≠ cell_index self.plane self.canvas.width z →
          out.canvas.buf[j]? = self.canvas.buf[j]?) := by
  constructor
  · intro hno
    exact plot_cell_miss upd miss (fun h => hno (in_bounds_pixel_ok h))
  · intro hok
    obtain ⟨exist, _, h⟩ := plot_cell_hit upd miss hv (pixel_ok_in_bounds hv hok)
    refine ⟨_, h, ?_⟩
    intro j hj
    simp [List.getElem?_set, Ne.symm hj]

/-- C20 fails as stated: on the zeroed 4x4 plot (`xmin = -1`, `xstep = 2/3`) the
value `z = (-4/3, 0)` has `re < xmin`, its quotient `(re - xmin) / xstep = -1/2`
has floor `-1` but is truncated to column 0, and `ct_plot_add` is not dropped:
it returns true and counts a hit in the cell of index 4 (column 0, row 1). -/
theorem ct_plot_window_counterexample :
    z_left.re < plot4.plane.axes.xmin ∧
    ⌊(z_left.re - plot4.plane.axes.xmin) / plot4.plane.xstep⌋ = -1 ∧
    pixel_x plot4.plane z_left = 0 ∧ pixel_y plot4.plane z_left = 1 ∧
    plot4.canvas.buf[4]? = some (CT_RGB 0 0 0) ∧
    (ct_plot_add plot4 z_left weight_red).map (fun r => (r.1, r.2.canvas.buf[4]?))
      = some (true, some cell_hit) :=
  ⟨by decide!, by decide!, by decide!, by decide!, by decide, by decide!⟩

/-- C20, amended: in the plot that `ct_plot_init` builds for a valid canvas of
width and height at least 2 and axes with `xmin < xmax`, `ymin < ymax`, for every
`z`: the bounds check of `ct_plot_add`, `ct_plot_point` and `ct_plot_addx` passes
exactly when `xmin - xstep < re < xmin + W * xstep` and
`ymax - H * ystep < im < ymax + ystep`; then the pixel is the quotient truncated
toward zero, that is `x = floor((re - xmin) / xstep)` when `re ≥ xmin` and
`x = 0` when `xmin - xstep < re < xmin`, `y = floor((ymax - im) / ystep)` when
`im ≤ ymax` and `y = 0` when `ymax < im < ymax + ystep`, and the three functions
return true and change no cell other than the one of index `x + y * W`; outside
that part of the plane (in particular for `re ≤ xmin - xstep` or
`im ≥ ymax + ystep`) the value is dropped and the plot is unchanged. -/
theorem ct_plot_window (axes : ct_axes) (canvas : ct_canvas) (hv : canvas.valid)
    (hW : 2 ≤ canvas.width) (hH : 2 ≤ canvas.height)
    (hx : axes.xmin < axes.xmax) (hy : axes.ymin < axes.ymax) :
    ∃ plot, ct_plot_init axes canvas = some plot ∧ plot.canvas = canvas ∧
      ∀ z : ct_complex,
        (in_bounds plot z ↔ in_window plot.plane canvas.width canvas.height z) ∧
        (in_window plot.plane canvas.width canvas.height z →
          (plot.plane.axes.xmin ≤ z.re →
            pixel_x plot.plane z = ⌊(z.re - plot.plane.axes.xmin) / plot.plane.xstep⌋) ∧
          (z.re < plot.plane.axes.xmin → pixel_x plot.plane z = 0) ∧
          (z.im ≤ plot.plane.axes.ymax →
            pixel_y plot.plane z = ⌊(plot.plane.axes.ymax - z.im) / plot.plane.ystep⌋) ∧
          (plot.plane.axes.ymax < z.im → pixel_y plot.plane z = 0)) ∧
        (¬ in_window plot.plane canvas.width canvas.height z → ∀ color : ct_rgb,
          ct_plot_add plot z color = some (true, plot) ∧
          ct_plot_point plot z color = some (false, plot) ∧
          ct_plot_addx plot z color = some (true, plot)) ∧
        (in_window plot.plane canvas.width canvas.height z → ∀ color : ct_rgb,
          (∃ out, ct_plot_add plot z color = some (true, out) ∧
            ∀ j, j ≠ cell_index plot.plane canvas.width z →
              out.canvas.buf[j]? = canvas.buf[j]?) ∧
          (∃ out, ct_plot_point plot z color = some (true, out) ∧
            ∀ j, j ≠ cell_index plot.plane canvas.width z →
              out.canvas.buf[j]? = canvas.buf[j]?) ∧
          (∃ out, ct_plot_addx plot z color = some (true, out) ∧
            ∀ j, j ≠ cell_index plot.plane canvas.width z →
              out.canvas.buf[j]? = canvas.buf[j]?)) := by
  obtain ⟨plane, _, hinit, hxs, hys, _, _⟩ := ct_plot_init_spec axes canvas hv hW hH hx hy
  refine ⟨{ plane := plane, canvas := canvas }, hinit, rfl, ?_⟩
  intro z
  have hiff := pixel_ok_iff_in_window plane canvas.width canvas.height (by omega) (by omega)
    hxs hys z
  have hb : in_bounds { plane := plane, canvas := canvas } z
      ↔ pixel_ok plane canvas.width canvas.height z :=
    @in_bounds_iff_pixel_ok { plane := plane, canvas := canvas } hv z
  have hframe : ∀ (upd : ct_rgb → ct_rgb) (miss : Bool), _ :=
    fun upd miss => plot_cell_frame { plane := plane, canvas := canvas } z upd miss hv
  refine ⟨hb.trans hiff, ?_, ?_, ?_⟩
  · intro hwin
    obtain ⟨w1, _, _, w4⟩ := hwin
    refine ⟨?_, ?_, ?_, ?_⟩
    · intro h
      exact trunc_of_nonneg (div_nonneg (by linarith) hxs.le)
    · intro h
      apply trunc_of_small_neg
      · exact div_neg_of_neg_of_pos (by linarith) hxs
      · rw [lt_div_iff₀ hxs]; linarith
    · intro h
      exact trunc_of_nonneg (div_nonneg (by linarith) hys.le)
    · intro h
      apply trunc_of_small_neg
      · exact div_neg_of_neg_of_pos (by linarith) hys
      · rw [lt_div_iff₀ hys]; linarith
  · intro hno color
    have hno1 : ¬ pixel_ok plane canvas.width canvas.height z := fun h => hno (hiff.1 h)
    exact ⟨by rw [ct_plot_add_eq]; exact (hframe _ _).1 hno1,
      by rw [ct_plot_point_eq]; exact (hframe _ _).1 hno1,
      by rw [ct_plot_addx_eq]; exact (hframe _ _).1 hno1⟩
  · intro hwin color
    have hok : pixel_ok plane canvas.width canvas.height z := hiff.2 hwin
    exact ⟨by rw [ct_plot_add_eq]; exact (hframe _ _).2 hok,
      by rw [ct_plot_point_eq]; exact (hframe _ _).2 hok,
      by rw [ct_plot_addx_eq]; exact (hframe _ _).2 hok⟩

/-- C20 amended, on the zeroed 4x4 canvas with the plane `[-1,1] x [-1,1]`. -/
theorem ct_plot_window_witness :
    (ct_canvas_zero 4 4).valid ∧ 2 ≤ (ct_canvas_zero 4 4).width ∧
    2 ≤ (ct_canvas_zero 4 4).height ∧ axes4.xmin < axes4.xmax ∧ axes4.ymin < axes4.ymax ∧
    ∃ plot, ct_plot_init axes4 (ct_canvas_zero 4 4) = some plot ∧
      plot.canvas = ct_canvas_zero 4 4 ∧
      ∀ z : ct_complex,
        (in_bounds plot z ↔
          in_window plot.plane (ct_canvas_zero 4 4).width (ct_canvas_zero 4 4).height z) ∧
        (in_window plot.plane (ct_canvas_zero 4 4).width (ct_canvas_zero 4 4).height z →
          (plot.plane.axes.xmin ≤ z.re →
            pixel_x plot.plane z = ⌊(z.re - plot.plane.axes.xmin) / plot.plane.xstep⌋) ∧
          (z.re < plot.plane.axes.xmin → pixel_x plot.plane z = 0) ∧
          (z.im ≤ plot.plane.axes.ymax →
            pixel_y plot.plane z = ⌊(plot.plane.axes.ymax - z.im) / plot.plane.ystep⌋) ∧
          (plot.plane.axes.ymax < z.im → pixel_y plot.plane z = 0)) ∧
        (¬ in_window plot.plane (ct_canvas_zero 4 4).width (ct_canvas_zero 4 4).height z →
          ∀ color : ct_rgb,
            ct_plot_add plot z color = some (true, plot) ∧
            ct_plot_point plot z color = some (false, plot) ∧
            ct_plot_addx plot z color = some (true, plot)) ∧
        (in_window plot.plane (ct_canvas_zero 4 4).width (ct_canvas_zero 4 4).height z →
          ∀ color : ct_rgb,
            (∃ out, ct_plot_add plot z color = some (true, out) ∧
              ∀ j, j ≠ cell_index plot.plane (ct_canvas_zero 4 4).width z →
                out.canvas.buf[j]? = (ct_canvas_zero 4 4).buf[j]?) ∧
            (∃ out, ct_plot_point plot z color = some (true, out) ∧
              ∀ j, j ≠ cell_index plot.plane (ct_canvas_zero 4 4).width z →
                out.canvas.buf[j]? = (ct_canvas_zero 4 4).buf[j]?) ∧
            (∃ out, ct_plot_addx plot z color = some (true, out) ∧
              ∀ j, j ≠ cell_index plot.plane (ct_canvas_zero 4 4).width z →
                out.canvas.buf[j]? = (ct_canvas_zero 4 4).buf[j]?)) :=
  ⟨by decide, by decide, by decide, by decide!, by decide!,
    ct_plot_window axes4 (ct_canvas_zero 4 4) (by decide) (by decide) (by decide)
      (by decide!) (by decide!)⟩

end MultiJulia
